import Mathlib

/-!
Verification of the PinCLI_SPI command-line interpreter sketch.

The embedding models the sketch's line editor (`read_input`), the strtok-based
token cursor (`get_token`), the command dispatch loop (`execute`) and the nine
command handlers.  Bytes are natural numbers, the fixed C arrays `line_buf`
(64 bytes) and `args` (16 bytes) are lists of bytes, and all side effects
(serial output, pin operations, SPI operations) are recorded as events.
External collaborators (pin levels, SPI received data, the contents of
arbitrary RAM addresses) are supplied by an `Env` record.
-/

namespace PinCLISpec

/-! ### Constants from the sketch and the Arduino AVR core -/

def CR_CHAR : Nat := 13
def LF_CHAR : Nat := 10
def BKSP_CHAR : Nat := 8
def SP_CHAR : Nat := 32

def LINE_BUF_SIZE : Nat := 64
def ARG_BUF_SIZE : Nat := 16

def LOW : Int := 0
def HIGH : Int := 1
def INPUT : Nat := 0
def OUTPUT : Nat := 1
def INPUT_PULLUP : Nat := 2
def LSBFIRST : Nat := 0
def MSBFIRST : Nat := 1
def SPI_MODE0 : Nat := 0x00
def SPI_MODE1 : Nat := 0x04
def SPI_MODE2 : Nat := 0x08
def SPI_MODE3 : Nat := 0x0C
def SPI_SPEED : Nat := 1000000
def SPI_ORDER : Nat := MSBFIRST
def SPI_MODE : Nat := SPI_MODE0
def SPI_SSPIN : Int := 10

/-! ### Bytes, strings and C string helpers -/

def zeros (n : Nat) : List Nat := List.replicate n 0

/-- Bytes of a Lean string literal (ASCII codes), used to write C string
literals of the sketch. -/
def strB (s : String) : List Nat := s.data.map Char.toNat

/-- `tolower` of avr-libc restricted to ASCII: maps `A`..`Z` down. -/
def toLowerB (c : Nat) : Nat := if 65 ≤ c ∧ c ≤ 90 then c + 32 else c

/-- The C string stored in a byte array: everything before the first NUL. -/
def cstr (a : List Nat) : List Nat := a.takeWhile (fun b => b != 0)

/-- `isspace` of the C locale used by `strtol`. -/
def isSpaceB (c : Nat) : Bool := decide (c = 32 ∨ (9 ≤ c ∧ c ≤ 13))

/-- Accumulate leading decimal digits, as `strtol` does. -/
def digitsVal : List Nat → Nat → Nat
  | [], acc => acc
  | c :: r, acc => if 48 ≤ c ∧ c ≤ 57 then digitsVal r (acc * 10 + (c - 48)) else acc

/-- Mathematical value parsed by `atoi`: skip spaces, optional sign, digits;
0 when no digits are present. -/
def atoiRaw (s : List Nat) : Int :=
  match s.dropWhile isSpaceB with
  | 43 :: r => (digitsVal r 0 : Int)
  | 45 :: r => -(digitsVal r 0 : Int)
  | s1 => (digitsVal s1 0 : Int)

/-- Wrap to a signed 16-bit `int` (the AVR `int` width). -/
def toInt16 (n : Int) : Int := (n + 32768) % 65536 - 32768

/-- `atoi` of avr-libc: permissive decimal parse into a 16-bit `int`. -/
def atoi (s : List Nat) : Int := toInt16 (atoiRaw s)

/-! ### Observable events (serial output and hardware calls) -/

inductive Ev : Type
  | wr (b : Nat)
  | pstr (s : String)
  | pstrln (s : String)
  | pnumln (n : Int)
  | pinModeEv (pin : Int) (m : Nat)
  | dwEv (pin : Int) (level : Int)
  | readEv (pin : Int)
  | delayEv (ms : Int)
  | spiBeginEv
  | spiBeginTransactionEv (hz : Nat) (order : Nat) (mode : Nat)
  | spiEndTransactionEv
  | spiTransferEv (b : Nat)
  | spiTransfer16Ev (w : Nat)
  deriving DecidableEq

def promptEv : Ev := Ev.pstr "> "

/-! ### Line editor (`read_input`) -/

structure LE where
  buf : List Nat
  cur : Nat
  ovf : Bool
  out : List Ev
  deriving DecidableEq

/-- One byte of `read_input`'s while loop.  Returns the new state and whether
a complete line (CR) was recognised.  Note that the sketch's
`*cp == '\x30'` at end of line is a comparison, not an assignment, hence a
no-op; the model reproduces that faithfully by doing nothing there. -/
def feedByte (st : LE) (c : Nat) : LE × Bool :=
  if c = LF_CHAR then (st, false)
  else if c = CR_CHAR then
    ({ st with out := st.out ++ [Ev.wr CR_CHAR, Ev.wr LF_CHAR] }, true)
  else if c = BKSP_CHAR then
    (if st.cur > 0 then
        { st with buf := st.buf.set (st.cur - 1) 0, cur := st.cur - 1,
                  out := st.out ++ [Ev.wr BKSP_CHAR, Ev.wr SP_CHAR, Ev.wr BKSP_CHAR] }
      else st, false)
  else
    let c2 := toLowerB c
    if st.cur < LINE_BUF_SIZE - 1 then
      ({ st with buf := st.buf.set st.cur c2, cur := st.cur + 1,
                 out := st.out ++ [Ev.wr c2] }, false)
    else
      ({ buf := (zeros LINE_BUF_SIZE).set 0 c2, cur := 1, ovf := true,
         out := st.out ++ [Ev.wr 7, Ev.wr CR_CHAR, Ev.wr LF_CHAR, promptEv, Ev.wr c2] },
       false)

/-- `read_input` over the available bytes: returns the final editor state and
`some rest` when a CR terminated the line (`rest` being the bytes still in the
serial buffer), `none` when input ran out without a terminator. -/
def read_input : LE → List Nat → LE × Option (List Nat)
  | st, [] => (st, none)
  | st, c :: rest =>
    let r := feedByte st c
    if r.2 then (r.1, some rest) else read_input r.1 rest

/-- Specification-side line editing (§4.1/§8 of the design): drop LFs, resolve
backspaces, lowercase everything else. -/
def specStep (acc : List Nat) (c : Nat) : List Nat :=
  if c = LF_CHAR then acc
  else if c = BKSP_CHAR then acc.dropLast
  else acc ++ [toLowerB c]

/-- The lowercased, backspace-resolved content of a CR-terminated input. -/
def lineEditorSpec (bs : List Nat) : List Nat := bs.foldl specStep []

/-! ### Token cursor (`strtok` with its hidden state, and `get_token`) -/

/-- Skip delimiter (space) bytes starting at `i` (fuel-based `strspn`). -/
def skipSpF : Nat → List Nat → Nat → Nat
  | 0, _, i => i
  | f + 1, buf, i => if buf.getD i 0 = 32 then skipSpF f buf (i + 1) else i

def skipSp (buf : List Nat) (i : Nat) : Nat := skipSpF buf.length buf i

/-- Advance to the next delimiter or NUL starting at `i` (fuel-based
`strcspn`). -/
def tokEndF : Nat → List Nat → Nat → Nat
  | 0, _, i => i
  | f + 1, buf, i =>
    if buf.getD i 0 ≠ 32 ∧ buf.getD i 0 ≠ 0 then tokEndF f buf (i + 1) else i

def tokEnd (buf : List Nat) (i : Nat) : Nat := tokEndF buf.length buf i

/-- The bytes of `buf` at positions `j ≤ m < k`. -/
def slice (buf : List Nat) (j k : Nat) : List Nat :=
  (List.range (k - j)).map (fun m => buf.getD (j + m) 0)

/-- avr-libc `strtok(instr, " ")` on the line buffer: `start` is the saved
scan position (0 on a non-NULL first argument).  Returns the token found (if
any), the possibly mutated buffer (the delimiter ending a token is overwritten
with NUL), and the new saved position. -/
def strtokSp (buf : List Nat) (start : Nat) : Option (List Nat) × List Nat × Nat :=
  let j := skipSp buf start
  if buf.getD j 0 = 0 then (none, buf, j)
  else
    let k := tokEnd buf j
    if buf.getD k 0 = 0 then (some (slice buf j k), buf, k)
    else (some (slice buf j k), buf.set k 0, k + 1)

/-- All tokens of `buf` from scan position `i` onward (fuel-based). -/
def tokensFromF : Nat → List Nat → Nat → List (List Nat)
  | 0, _, _ => []
  | f + 1, buf, i =>
    let j := skipSp buf i
    if buf.getD j 0 = 0 then []
    else
      let k := tokEnd buf j
      slice buf j k :: tokensFromF f buf (if buf.getD k 0 = 0 then k else k + 1)

def tokensFrom (buf : List Nat) (i : Nat) : List (List Nat) :=
  tokensFromF (buf.length + 1) buf i

/-! ### Interpreter state and `get_token` -/

structure Cli where
  line : List Nat
  save : Nat
  args : List Nat
  err : Bool
  deriving DecidableEq

/-- `strcpy(outstr, token)`: the token and its terminator overwrite the front
of the argument buffer; bytes past the terminator keep their old value. -/
def strcpyTok (a t : List Nat) : List Nat := (t ++ [0]) ++ a.drop (t.length + 1)

/-- The scan position `strtok` starts from: the beginning of the line when its
first argument is the line buffer (a reset), the saved position when it is
`NULL`. -/
def scanFrom (st : Cli) : Bool → Nat
  | true => 0
  | false => st.save

/-- `get_token(instr, outstr)`: `reset` is true when `instr` is the line
buffer (non-NULL), false for the `NULL` continuation calls.  Emits the
"Token too long." notice and raises `error_flag` exactly as the sketch does. -/
def get_token (st : Cli) (reset : Bool) : Cli × List Ev :=
  let a1 := st.args.set 0 0
  match strtokSp st.line (scanFrom st reset) with
  | (none, buf2, sv) => ({ st with line := buf2, save := sv, args := a1 }, [])
  | (some t, buf2, sv) =>
    if t.length < ARG_BUF_SIZE then
      ({ st with line := buf2, save := sv, args := strcpyTok a1 t }, [])
    else
      ({ st with line := buf2, save := sv, args := a1, err := true },
       [Ev.pstrln "Token too long."])

def parse_cmd (st : Cli) : Cli × List Ev := get_token st true

/-! ### Environment: external collaborators -/

structure Env where
  /-- `digitalRead` result per pin. -/
  rd : Int → Int
  /-- `SPI.transfer` received byte for a sent byte. -/
  spi8 : Nat → Nat
  /-- `SPI.transfer16` received word for a sent word. -/
  spi16 : Nat → Nat
  /-- Result of `atoi` when handed an arbitrary address: `cmd_pr` passes the
  char `args[1]` where a pointer is expected, so the integer obtained depends
  on whatever RAM holds at that address. -/
  memAtoi : Nat → Int
  /-- `cmd_help` falls off the end of a non-void function; the int it
  "returns" is indeterminate. -/
  helpStatus : Int

/-! ### Command handlers -/

def commands_str : List String :=
  ["delay", "help", "pmode", "pr", "pw", "spiend", "spirw", "spirw16", "spistart"]

def help_help_ev : List Ev :=
  [Ev.pstrln "The following commands are available:"] ++
  (commands_str.map (fun n => [Ev.pstr "  ", Ev.pstrln n])).flatten ++
  [Ev.pstrln "",
   Ev.pstrln "You can for instance type \"help pmode\" for more info on the pmode command."]

def help_delay_ev : List Ev :=
  [Ev.pstrln "  Pause execution for a time.  *** Serial buffer overflow danger! ***",
   Ev.pstrln "    delay <milliseconds>",
   Ev.pstrln "      <milliseconds> -> number of milliseconds to delay"]

def help_pmode_ev : List Ev :=
  [Ev.pstrln "  Set digital pin mode",
   Ev.pstrln "    pmode <pin> <mode>",
   Ev.pstrln "      <pin> -> digital pin number",
   Ev.pstrln "      <mode> -> mode indicator: I, IP, or O"]

def help_pr_ev : List Ev :=
  [Ev.pstrln "  Digital pin read",
   Ev.pstrln "    pr <pin>",
   Ev.pstrln "      <pin> -> digital pin number",
   Ev.pstrln "  Returns value (0 or 1) on the specified pin."]

def help_pw_ev : List Ev :=
  [Ev.pstrln "  Write value to digital pin",
   Ev.pstrln "    pw <pin> <value>",
   Ev.pstrln "      <pin> -> digital pin number",
   Ev.pstrln "      <value> -> value to write to pin (0 or 1)"]

def help_spiend_ev : List Ev := [Ev.pstrln "  End SPI transaction."]

def help_spirw_ev : List Ev :=
  [Ev.pstrln "  Read and Write one byte on SPI",
   Ev.pstrln "    spirw <byte>",
   Ev.pstrln "      <byte> -> number to write, 0 to 255",
   Ev.pstrln "  Returns value read from SPI bus."]

def help_spirw16_ev : List Ev :=
  [Ev.pstrln "  Read and Write a 16-bit (2 byte) value on SPI",
   Ev.pstrln "    spirw <value>",
   Ev.pstrln "      <value> -> number to write, 0 to 65535",
   Ev.pstrln "  Returns value read from SPI bus."]

def help_spistart_ev : List Ev :=
  [Ev.pstrln "  Start SPI transaction.",
   Ev.pstrln "    spistart <order> <mode>",
   Ev.pstrln "      <order> -> bit order: lsbfirst or msbfirst",
   Ev.pstrln "      <mode> -> SPI bus mode:  mode0, mode1, mode2, or mode3",
   Ev.pstrln "  If arguments are missing or invalid, then defaults are used."]

def cmd_delay (_env : Env) (st : Cli) : Cli × Int × List Ev :=
  let r := get_token st false
  let val := atoi (cstr r.1.args)
  (r.1, 0, r.2 ++ [Ev.delayEv val])

def cmd_help (env : Env) (st : Cli) : Cli × Int × List Ev :=
  let r := get_token st false
  let st1 := r.1
  let evs :=
    if st1.args.getD 0 0 = 0 then help_help_ev
    else if cstr st1.args = strB "delay" then help_delay_ev
    else if cstr st1.args = strB "help" then help_help_ev
    else if cstr st1.args = strB "pmode" then help_pmode_ev
    else if cstr st1.args = strB "pr" then help_pr_ev
    else if cstr st1.args = strB "pw" then help_pw_ev
    else if cstr st1.args = strB "spiend" then help_spiend_ev
    else if cstr st1.args = strB "spirw" then help_spirw_ev
    else if cstr st1.args = strB "spirw16" then help_spirw16_ev
    else if cstr st1.args = strB "spistart" then help_spistart_ev
    else help_help_ev
  (st1, env.helpStatus, r.2 ++ evs)

def cmd_pmode (_env : Env) (st : Cli) : Cli × Int × List Ev :=
  let r1 := get_token st false
  let pinnum := atoi (cstr r1.1.args)
  let r2 := get_token r1.1 false
  let act :=
    if cstr r2.1.args = strB "i" then [Ev.pinModeEv pinnum INPUT]
    else if cstr r2.1.args = strB "ip" then [Ev.pinModeEv pinnum INPUT_PULLUP]
    else if cstr r2.1.args = strB "o" then [Ev.pinModeEv pinnum OUTPUT]
    else []
  (r2.1, 0, r1.2 ++ r2.2 ++ act)

/-- `cmd_pr` as written in the sketch: `pinnum = atoi(args[1]);` hands the
single character `args[1]` to `atoi` where a `char *` is expected, so the pin
number is parsed from whatever memory sits at that address, not from the
token. -/
def cmd_pr (env : Env) (st : Cli) : Cli × Int × List Ev :=
  let r := get_token st false
  let pinnum := env.memAtoi (r.1.args.getD 1 0)
  let val := env.rd pinnum
  if val = LOW then (r.1, 0, r.2 ++ [Ev.readEv pinnum, Ev.pnumln 0])
  else if val = HIGH then (r.1, 1, r.2 ++ [Ev.readEv pinnum, Ev.pnumln 1])
  else (r.1, -1, r.2 ++ [Ev.readEv pinnum])

def cmd_pw (_env : Env) (st : Cli) : Cli × Int × List Ev :=
  let r1 := get_token st false
  let pinnum := atoi (cstr r1.1.args)
  let r2 := get_token r1.1 false
  let val := atoi (cstr r2.1.args)
  if val = 0 then (r2.1, 0, r1.2 ++ r2.2 ++ [Ev.dwEv pinnum LOW])
  else if val = 1 then (r2.1, 0, r1.2 ++ r2.2 ++ [Ev.dwEv pinnum HIGH])
  else (r2.1, 0, r1.2 ++ r2.2 ++ [Ev.pstrln "Digital pin write value error"])

def cmd_spiend (_env : Env) (st : Cli) : Cli × Int × List Ev :=
  (st, 0, [Ev.dwEv SPI_SSPIN HIGH, Ev.spiEndTransactionEv])

def cmd_spirw (env : Env) (st : Cli) : Cli × Int × List Ev :=
  let r := get_token st false
  let write_val := ((atoi (cstr r.1.args)) % 256).toNat
  let rx_val := env.spi8 write_val % 256
  (r.1, (rx_val : Int), r.2 ++ [Ev.spiTransferEv write_val, Ev.pnumln (rx_val : Int)])

def cmd_spirw16 (env : Env) (st : Cli) : Cli × Int × List Ev :=
  let r := get_token st false
  let write_val := ((atoi (cstr r.1.args)) % 65536).toNat
  /- `int rx_val = SPI.transfer16(...)`: the `uint16_t` result is stored in a
  signed 16-bit `int`, so received words of 32768 and above print and return
  as negative numbers. -/
  let rx_val := toInt16 ((env.spi16 write_val % 65536 : Nat) : Int)
  (r.1, rx_val, r.2 ++ [Ev.spiTransfer16Ev write_val, Ev.pnumln rx_val])

def cmd_spistart (_env : Env) (st : Cli) : Cli × Int × List Ev :=
  let r1 := get_token st false
  let order :=
    if cstr r1.1.args = strB "lsbfirst" then LSBFIRST
    else if cstr r1.1.args = strB "msbfirst" then MSBFIRST
    else SPI_ORDER
  let r2 := get_token r1.1 false
  let mode :=
    if cstr r2.1.args = strB "mode0" then SPI_MODE0
    else if cstr r2.1.args = strB "mode1" then SPI_MODE1
    else if cstr r2.1.args = strB "mode2" then SPI_MODE2
    else if cstr r2.1.args = strB "mode3" then SPI_MODE3
    else SPI_MODE
  (r2.1, 0, r1.2 ++ r2.2 ++
    [Ev.pinModeEv SPI_SSPIN OUTPUT, Ev.spiBeginEv,
     Ev.spiBeginTransactionEv SPI_SPEED order mode, Ev.dwEv SPI_SSPIN LOW])

/-! ### Command table and dispatch (`execute`) -/

abbrev Handler := Env → Cli → Cli × Int × List Ev

def commands_func : List Handler :=
  [cmd_delay, cmd_help, cmd_pmode, cmd_pr, cmd_pw, cmd_spiend, cmd_spirw,
   cmd_spirw16, cmd_spistart]

def cmdTable : List (String × Handler) := commands_str.zip commands_func

def execGo (env : Env) (st : Cli) : List (String × Handler) → Cli × Int × List Ev
  | [] => (st, 0, [Ev.pstrln "Invalid command. Type \"help\" for more."])
  | e :: rest => if cstr st.args = strB e.1 then e.2 env st else execGo env st rest

def execute (env : Env) (st : Cli) : Cli × Int × List Ev :=
  if st.args.getD 0 0 = 0 then (st, 0, [Ev.pstrln "(Empty Command)"])
  else execGo env st cmdTable

/-- §4.3 as the specification states it: empty token notice, exact-match
lookup over the descriptor table (first match), invalid-command notice. -/
def dispatch_spec (env : Env) (st : Cli) : Cli × Int × List Ev :=
  if cstr st.args = [] then (st, 0, [Ev.pstrln "(Empty Command)"])
  else
    match cmdTable.find? (fun e => cstr st.args == strB e.1) with
    | some e => e.2 env st
    | none => (st, 0, [Ev.pstrln "Invalid command. Type \"help\" for more."])

/-! ### One command cycle and the whole pipeline -/

/-- The body of `PinCLI()` once `read_input` reported a complete line:
tokenize the command name, skip `execute` when the error flag was raised,
clear the buffers, emit the prompt, clear the error flag. -/
def cli_cycle (env : Env) (st : Cli) : Cli × List Ev :=
  let r1 := parse_cmd st
  let r2 := if r1.1.err then (r1.1, ([] : List Ev))
            else (let e := execute env r1.1; (e.1, e.2.2))
  ({ line := zeros LINE_BUF_SIZE, save := r2.1.save, args := zeros ARG_BUF_SIZE,
     err := false },
   r1.2 ++ r2.2 ++ [promptEv])

def LE0 : LE := { buf := zeros LINE_BUF_SIZE, cur := 0, ovf := false, out := [] }

def cli0 (line : List Nat) : Cli :=
  { line := line, save := 0, args := zeros ARG_BUF_SIZE, err := false }

/-- Feed raw serial bytes to the line editor and, when a line completes, run
one full command cycle.  Returns the final interpreter state and every event
(echo included). -/
def processLine (env : Env) (input : List Nat) : Cli × List Ev :=
  match read_input LE0 input with
  | (le, some _) => let r := cli_cycle env (cli0 le.buf); (r.1, le.out ++ r.2)
  | (le, none) => (cli0 le.buf, le.out)

/-- Claim-side resolution of the `spistart` bit-order token. -/
def resolveOrder (t : List Nat) : Nat :=
  if t = strB "lsbfirst" then LSBFIRST else MSBFIRST

/-- Claim-side resolution of the `spistart` mode token. -/
def resolveMode (t : List Nat) : Nat :=
  if t = strB "mode0" then SPI_MODE0
  else if t = strB "mode1" then SPI_MODE1
  else if t = strB "mode2" then SPI_MODE2
  else if t = strB "mode3" then SPI_MODE3
  else SPI_MODE0

/-! ### List helper lemmas -/

lemma getD_oob : ∀ {l : List Nat} {i : Nat}, l.length ≤ i → l.getD i 0 = 0 := by
  intro l
  induction l with
  | nil => intro i _; simp
  | cons a t ih =>
    intro i h
    cases i with
    | zero => simp at h
    | succ n => simpa using ih (by simpa using h)

lemma getD_lt_length {l : List Nat} {i : Nat} (h : l.getD i 0 ≠ 0) : i < l.length := by
  by_contra hc
  exact h (getD_oob (by omega))

lemma getD_set_ne {l : List Nat} {k i : Nat} (c : Nat) (h : k ≠ i) :
    (l.set k c).getD i 0 = l.getD i 0 := by
  induction l generalizing k i with
  | nil => simp
  | cons a t ih =>
    cases k with
    | zero =>
      cases i with
      | zero => exact absurd rfl h
      | succ n => simp
    | succ m =>
      cases i with
      | zero => simp
      | succ n => simpa using ih (by omega)

lemma getD_append_left {l₁ l₂ : List Nat} {i : Nat} (h : i < l₁.length) :
    (l₁ ++ l₂).getD i 0 = l₁.getD i 0 := by
  induction l₁ generalizing i with
  | nil => simp at h
  | cons a t ih =>
    cases i with
    | zero => simp
    | succ n => simpa using ih (by simpa using h)

lemma getD_append_right {l₁ l₂ : List Nat} {i : Nat} (h : l₁.length ≤ i) :
    (l₁ ++ l₂).getD i 0 = l₂.getD (i - l₁.length) 0 := by
  induction l₁ generalizing i with
  | nil => simp
  | cons a t ih =>
    cases i with
    | zero => simp at h
    | succ n => simpa using ih (by simpa using h)

lemma set_append_len (acc : List Nat) (c x : Nat) (z : List Nat) :
    (acc ++ x :: z).set acc.length c = acc ++ c :: z := by
  induction acc with
  | nil => simp
  | cons a t ih => simp [ih]

lemma set_zero_drop (l : List Nat) (c : Nat) {m : Nat} (h : 1 ≤ m) :
    (l.set 0 c).drop m = l.drop m := by
  cases l with
  | nil => simp
  | cons a t =>
    cases m with
    | zero => omega
    | succ n => simp

lemma zeros_succ (n : Nat) : zeros (n + 1) = 0 :: zeros n := rfl

lemma length_zeros (n : Nat) : (zeros n).length = n := by simp [zeros]

/-! ### Properties of the delimiter scanner `skipSp` -/

lemma skipSpF_le (buf : List Nat) : ∀ f i, i ≤ skipSpF f buf i := by
  intro f
  induction f with
  | zero => intro i; simp [skipSpF]
  | succ g ih =>
    intro i
    simp only [skipSpF]
    split
    · exact le_trans (by omega) (ih (i + 1))
    · exact le_refl i

lemma skipSpF_adequate (buf : List Nat) :
    ∀ f g i, buf.length ≤ i + f → buf.length ≤ i + g →
      skipSpF f buf i = skipSpF g buf i := by
  intro f
  induction f with
  | zero =>
    intro g i hf _
    have h0 : buf.getD i 0 = 0 := getD_oob (by omega)
    have hcond : ¬(buf.getD i 0 = 32) := by rw [h0]; norm_num
    cases g with
    | zero => rfl
    | succ g2 =>
      simp only [skipSpF]
      rw [if_neg hcond]
  | succ f2 ih =>
    intro g i hf hg
    cases g with
    | zero =>
      have h0 : buf.getD i 0 = 0 := getD_oob (by omega)
      have hcond : ¬(buf.getD i 0 = 32) := by rw [h0]; norm_num
      simp only [skipSpF]
      rw [if_neg hcond]
    | succ g2 =>
      simp only [skipSpF]
      split
      · next hsp =>
        have hi : i < buf.length := getD_lt_length (by rw [hsp]; norm_num)
        exact ih g2 (i + 1) (by omega) (by omega)
      · rfl

lemma skipSp_eq (buf : List Nat) (i : Nat) :
    skipSp buf i = if buf.getD i 0 = 32 then skipSp buf (i + 1) else i := by
  by_cases h : buf.getD i 0 = 32
  · rw [if_pos h]
    have hi : i < buf.length := getD_lt_length (by rw [h]; norm_num)
    show skipSpF buf.length buf i = skipSpF buf.length buf (i + 1)
    cases hl : buf.length with
    | zero => omega
    | succ n =>
      calc skipSpF (n + 1) buf i = skipSpF n buf (i + 1) := by
              simp only [skipSpF]; rw [if_pos h]
        _ = skipSpF (n + 1) buf (i + 1) :=
              skipSpF_adequate buf n (n + 1) (i + 1) (by omega) (by omega)
  · rw [if_neg h]
    show skipSpF buf.length buf i = i
    cases buf.length with
    | zero => rfl
    | succ n =>
      simp only [skipSpF]
      rw [if_neg h]

lemma skipSp_le (buf : List Nat) (i : Nat) : i ≤ skipSp buf i :=
  skipSpF_le buf buf.length i

lemma skipSpF_sp (buf : List Nat) :
    ∀ f i m, i ≤ m → m < skipSpF f buf i → buf.getD m 0 = 32 := by
  intro f
  induction f with
  | zero => intro i m h1 h2; simp [skipSpF] at h2; omega
  | succ g ih =>
    intro i m h1 h2
    simp only [skipSpF] at h2
    split at h2
    · next hsp =>
      rcases Nat.eq_or_lt_of_le h1 with rfl | hlt
      · exact hsp
      · exact ih (i + 1) m (by omega) h2
    · omega

lemma skipSp_sp (buf : List Nat) {i m : Nat} (h1 : i ≤ m) (h2 : m < skipSp buf i) :
    buf.getD m 0 = 32 := skipSpF_sp buf buf.length i m h1 h2

lemma skipSpF_ne (buf : List Nat) :
    ∀ f i, buf.length ≤ i + f → buf.getD (skipSpF f buf i) 0 ≠ 32 := by
  intro f
  induction f with
  | zero =>
    intro i h
    have h0 : buf.getD i 0 = 0 := getD_oob (by omega)
    show buf.getD (skipSpF 0 buf i) 0 ≠ 32
    simp only [skipSpF]
    rw [h0]
    norm_num
  | succ g ih =>
    intro i h
    simp only [skipSpF]
    split
    · next hsp =>
      have hi : i < buf.length := getD_lt_length (by rw [hsp]; norm_num)
      exact ih (i + 1) (by omega)
    · next hsp => exact hsp

lemma skipSp_ne (buf : List Nat) (i : Nat) : buf.getD (skipSp buf i) 0 ≠ 32 :=
  skipSpF_ne buf buf.length i (by omega)

lemma skipSpF_char (buf : List Nat) :
    ∀ f i j, i ≤ j → j ≤ i + f → (∀ m, i ≤ m → m < j → buf.getD m 0 = 32) →
      buf.getD j 0 ≠ 32 → skipSpF f buf i = j := by
  intro f
  induction f with
  | zero => intro i j h1 h2 _ _; simp [skipSpF]; omega
  | succ g ih =>
    intro i j h1 h2 hsp hj
    simp only [skipSpF]
    rcases Nat.eq_or_lt_of_le h1 with rfl | hlt
    · rw [if_neg hj]
    · rw [if_pos (hsp i le_rfl hlt)]
      exact ih (i + 1) j (by omega) (by omega) (fun m hm1 hm2 => hsp m (by omega) hm2) hj

lemma skipSp_char (buf : List Nat) {i j : Nat} (hij : i ≤ j)
    (hsp : ∀ m, i ≤ m → m < j → buf.getD m 0 = 32)
    (hj : buf.getD j 0 ≠ 32) : skipSp buf i = j := by
  have hjb : j ≤ i + buf.length := by
    by_contra hc
    push_neg at hc
    have hm : buf.getD (i + buf.length) 0 = 32 := hsp _ (by omega) (by omega)
    have h0 : buf.getD (i + buf.length) 0 = 0 := getD_oob (by omega)
    omega
  exact skipSpF_char buf buf.length i j hij (by omega) hsp hj

lemma skipSp_oob (buf : List Nat) {i : Nat} (h : buf.length ≤ i) : skipSp buf i = i := by
  have h0 : buf.getD i 0 = 0 := getD_oob h
  rw [skipSp_eq, if_neg (by rw [h0]; norm_num)]

/-! ### Properties of the token scanner `tokEnd` -/

lemma tokEndF_le (buf : List Nat) : ∀ f i, i ≤ tokEndF f buf i := by
  intro f
  induction f with
  | zero => intro i; simp [tokEndF]
  | succ g ih =>
    intro i
    simp only [tokEndF]
    split
    · exact le_trans (by omega) (ih (i + 1))
    · exact le_refl i

lemma tokEndF_adequate (buf : List Nat) :
    ∀ f g i, buf.length ≤ i + f → buf.length ≤ i + g →
      tokEndF f buf i = tokEndF g buf i := by
  intro f
  induction f with
  | zero =>
    intro g i hf _
    have h0 : buf.getD i 0 = 0 := getD_oob (by omega)
    have hcond : ¬(buf.getD i 0 ≠ 32 ∧ buf.getD i 0 ≠ 0) := fun hc => hc.2 h0
    cases g with
    | zero => rfl
    | succ g2 =>
      simp only [tokEndF]
      rw [if_neg hcond]
  | succ f2 ih =>
    intro g i hf hg
    cases g with
    | zero =>
      have h0 : buf.getD i 0 = 0 := getD_oob (by omega)
      have hcond : ¬(buf.getD i 0 ≠ 32 ∧ buf.getD i 0 ≠ 0) := fun hc => hc.2 h0
      simp only [tokEndF]
      rw [if_neg hcond]
    | succ g2 =>
      simp only [tokEndF]
      split
      · next hc =>
        have hi : i < buf.length := getD_lt_length hc.2
        exact ih g2 (i + 1) (by omega) (by omega)
      · rfl

lemma tokEnd_eq (buf : List Nat) (i : Nat) :
    tokEnd buf i =
      if buf.getD i 0 ≠ 32 ∧ buf.getD i 0 ≠ 0 then tokEnd buf (i + 1) else i := by
  by_cases h : buf.getD i 0 ≠ 32 ∧ buf.getD i 0 ≠ 0
  · rw [if_pos h]
    have hi : i < buf.length := getD_lt_length h.2
    show tokEndF buf.length buf i = tokEndF buf.length buf (i + 1)
    cases hl : buf.length with
    | zero => omega
    | succ n =>
      calc tokEndF (n + 1) buf i = tokEndF n buf (i + 1) := by
              simp only [tokEndF]; rw [if_pos h]
        _ = tokEndF (n + 1) buf (i + 1) :=
              tokEndF_adequate buf n (n + 1) (i + 1) (by omega) (by omega)
  · rw [if_neg h]
    show tokEndF buf.length buf i = i
    cases buf.length with
    | zero => rfl
    | succ n =>
      simp only [tokEndF]
      rw [if_neg h]

lemma tokEnd_le (buf : List Nat) (i : Nat) : i ≤ tokEnd buf i :=
  tokEndF_le buf buf.length i

lemma tokEndF_interior (buf : List Nat) :
    ∀ f i m, i ≤ m → m < tokEndF f buf i →
      buf.getD m 0 ≠ 32 ∧ buf.getD m 0 ≠ 0 := by
  intro f
  induction f with
  | zero => intro i m h1 h2; simp [tokEndF] at h2; omega
  | succ g ih =>
    intro i m h1 h2
    simp only [tokEndF] at h2
    split at h2
    · next hc =>
      rcases Nat.eq_or_lt_of_le h1 with rfl | hlt
      · exact hc
      · exact ih (i + 1) m (by omega) h2
    · omega

lemma tokEnd_interior (buf : List Nat) {i m : Nat} (h1 : i ≤ m) (h2 : m < tokEnd buf i) :
    buf.getD m 0 ≠ 32 ∧ buf.getD m 0 ≠ 0 := tokEndF_interior buf buf.length i m h1 h2

lemma tokEndF_stop (buf : List Nat) :
    ∀ f i, buf.length ≤ i + f →
      buf.getD (tokEndF f buf i) 0 = 32 ∨ buf.getD (tokEndF f buf i) 0 = 0 := by
  intro f
  induction f with
  | zero =>
    intro i h
    have h0 : buf.getD i 0 = 0 := getD_oob (by omega)
    show buf.getD (tokEndF 0 buf i) 0 = 32 ∨ buf.getD (tokEndF 0 buf i) 0 = 0
    simp only [tokEndF]
    exact Or.inr h0
  | succ g ih =>
    intro i h
    simp only [tokEndF]
    split
    · next hc =>
      have hi : i < buf.length := getD_lt_length hc.2
      exact ih (i + 1) (by omega)
    · next hc =>
      rcases not_and_or.mp hc with h1 | h2
      · exact Or.inl (not_not.mp h1)
      · exact Or.inr (not_not.mp h2)

lemma tokEnd_stop (buf : List Nat) (i : Nat) :
    buf.getD (tokEnd buf i) 0 = 32 ∨ buf.getD (tokEnd buf i) 0 = 0 :=
  tokEndF_stop buf buf.length i (by omega)

lemma tokEnd_gt (buf : List Nat) {i : Nat} (h32 : buf.getD i 0 ≠ 32)
    (h0 : buf.getD i 0 ≠ 0) : i + 1 ≤ tokEnd buf i := by
  rw [tokEnd_eq, if_pos ⟨h32, h0⟩]
  have := tokEnd_le buf (i + 1)
  omega

lemma tokEndF_le_len (buf : List Nat) :
    ∀ f i, i ≤ buf.length → tokEndF f buf i ≤ buf.length := by
  intro f
  induction f with
  | zero => intro i h; simpa [tokEndF] using h
  | succ g ih =>
    intro i h
    simp only [tokEndF]
    split
    · next hc =>
      have hi : i < buf.length := getD_lt_length hc.2
      exact ih (i + 1) (by omega)
    · exact h

lemma tokEnd_le_len (buf : List Nat) {i : Nat} (h : i ≤ buf.length) :
    tokEnd buf i ≤ buf.length := tokEndF_le_len buf buf.length i h

lemma tokEnd_char (buf : List Nat) {i j : Nat} (hij : i ≤ j)
    (hint : ∀ m, i ≤ m → m < j → buf.getD m 0 ≠ 32 ∧ buf.getD m 0 ≠ 0)
    (hj : buf.getD j 0 = 32 ∨ buf.getD j 0 = 0) : tokEnd buf i = j := by
  have hneg : ¬(buf.getD j 0 ≠ 32 ∧ buf.getD j 0 ≠ 0) := by
    rcases hj with h | h
    · exact fun hc => hc.1 h
    · exact fun hc => hc.2 h
  have hjb : j ≤ i + buf.length := by
    by_contra hc
    push_neg at hc
    have hm := hint (i + buf.length) (by omega) (by omega)
    have h0 : buf.getD (i + buf.length) 0 = 0 := getD_oob (by omega)
    exact hm.2 h0
  have main : ∀ f i2, i2 ≤ j → j ≤ i2 + f →
      (∀ m, i2 ≤ m → m < j → buf.getD m 0 ≠ 32 ∧ buf.getD m 0 ≠ 0) →
      tokEndF f buf i2 = j := by
    intro f
    induction f with
    | zero => intro i2 h1 h2 _; simp [tokEndF]; omega
    | succ g ih =>
      intro i2 h1 h2 hint2
      simp only [tokEndF]
      rcases Nat.eq_or_lt_of_le h1 with rfl | hlt
      · rw [if_neg hneg]
      · rw [if_pos (hint2 i2 le_rfl hlt)]
        exact ih (i2 + 1) (by omega) (by omega) (fun m hm1 hm2 => hint2 m (by omega) hm2)
  exact main buf.length i hij (by omega) hint

/-! ### More helper lemmas -/

lemma getD_set_self {l : List Nat} {k : Nat} (c : Nat) (h : k < l.length) :
    (l.set k c).getD k 0 = c := by
  induction l generalizing k with
  | nil => simp at h
  | cons a t ih =>
    cases k with
    | zero => simp
    | succ n => simpa using ih (by simpa using h)

lemma slice_congr_range {b1 b2 : List Nat} {j k : Nat}
    (hag : ∀ m, j ≤ m → m < k → b1.getD m 0 = b2.getD m 0) :
    slice b1 j k = slice b2 j k := by
  unfold slice
  apply List.map_congr_left
  intro m hm
  have hlt := List.mem_range.mp hm
  exact hag (j + m) (by omega) (by omega)

lemma skipSpF_congr {b1 b2 : List Nat} :
    ∀ f i, (∀ m, i ≤ m → b1.getD m 0 = b2.getD m 0) →
      skipSpF f b1 i = skipSpF f b2 i := by
  intro f
  induction f with
  | zero => intro i _; rfl
  | succ g ih =>
    intro i hag
    simp only [skipSpF]
    rw [hag i le_rfl]
    split
    · exact ih (i + 1) (fun m hm => hag m (by omega))
    · rfl

lemma skipSp_congr {b1 b2 : List Nat} (hlen : b1.length = b2.length) (i : Nat)
    (hag : ∀ m, i ≤ m → b1.getD m 0 = b2.getD m 0) : skipSp b1 i = skipSp b2 i := by
  show skipSpF b1.length b1 i = skipSpF b2.length b2 i
  rw [hlen]
  exact skipSpF_congr b2.length i hag

lemma tokEndF_congr {b1 b2 : List Nat} :
    ∀ f i, (∀ m, i ≤ m → b1.getD m 0 = b2.getD m 0) →
      tokEndF f b1 i = tokEndF f b2 i := by
  intro f
  induction f with
  | zero => intro i _; rfl
  | succ g ih =>
    intro i hag
    simp only [tokEndF]
    rw [hag i le_rfl]
    split
    · exact ih (i + 1) (fun m hm => hag m (by omega))
    · rfl

lemma tokEnd_congr {b1 b2 : List Nat} (hlen : b1.length = b2.length) (i : Nat)
    (hag : ∀ m, i ≤ m → b1.getD m 0 = b2.getD m 0) : tokEnd b1 i = tokEnd b2 i := by
  show tokEndF b1.length b1 i = tokEndF b2.length b2 i
  rw [hlen]
  exact tokEndF_congr b2.length i hag

/-! ### Properties of `tokensFrom` -/

lemma tokensFromF_oob (buf : List Nat) : ∀ f i, buf.length ≤ i →
    tokensFromF f buf i = [] := by
  intro f i h
  cases f with
  | zero => rfl
  | succ g =>
    have hj : skipSp buf i = i := skipSp_oob buf h
    have h0 : buf.getD i 0 = 0 := getD_oob h
    simp only [tokensFromF]
    rw [hj, if_pos h0]

lemma tokensFromF_adequate (buf : List Nat) :
    ∀ f g i, buf.length < i + f → buf.length < i + g →
      tokensFromF f buf i = tokensFromF g buf i := by
  intro f
  induction f with
  | zero =>
    intro g i hf hg
    rw [tokensFromF_oob buf g i (by omega)]
    rfl
  | succ f2 ih =>
    intro g i hf hg
    cases g with
    | zero =>
      rw [tokensFromF_oob buf (f2 + 1) i (by omega)]
      rfl
    | succ g2 =>
      simp only [tokensFromF]
      by_cases h0 : buf.getD (skipSp buf i) 0 = 0
      · rw [if_pos h0, if_pos h0]
      · rw [if_neg h0, if_neg h0]
        have hjge : i ≤ skipSp buf i := skipSp_le buf i
        have hj32 : buf.getD (skipSp buf i) 0 ≠ 32 := skipSp_ne buf i
        have hk2 : skipSp buf i + 1 ≤ tokEnd buf (skipSp buf i) := tokEnd_gt buf hj32 h0
        congr 1
        by_cases hk0 : buf.getD (tokEnd buf (skipSp buf i)) 0 = 0
        · rw [if_pos hk0]
          exact ih g2 _ (by omega) (by omega)
        · rw [if_neg hk0]
          exact ih g2 _ (by omega) (by omega)

lemma tokensFrom_eq (buf : List Nat) (i : Nat) :
    tokensFrom buf i =
      if buf.getD (skipSp buf i) 0 = 0 then []
      else
        slice buf (skipSp buf i) (tokEnd buf (skipSp buf i)) ::
          tokensFrom buf
            (if buf.getD (tokEnd buf (skipSp buf i)) 0 = 0 then tokEnd buf (skipSp buf i)
             else tokEnd buf (skipSp buf i) + 1) := by
  show tokensFromF (buf.length + 1) buf i = _
  simp only [tokensFromF]
  by_cases h0 : buf.getD (skipSp buf i) 0 = 0
  · rw [if_pos h0, if_pos h0]
  · rw [if_neg h0, if_neg h0]
    have hjge : i ≤ skipSp buf i := skipSp_le buf i
    have hj32 : buf.getD (skipSp buf i) 0 ≠ 32 := skipSp_ne buf i
    have hk2 : skipSp buf i + 1 ≤ tokEnd buf (skipSp buf i) := tokEnd_gt buf hj32 h0
    congr 1
    by_cases hk0 : buf.getD (tokEnd buf (skipSp buf i)) 0 = 0
    · rw [if_pos hk0]
      exact tokensFromF_adequate buf buf.length (buf.length + 1) _ (by omega) (by omega)
    · rw [if_neg hk0]
      exact tokensFromF_adequate buf buf.length (buf.length + 1) _ (by omega) (by omega)

lemma tokensFrom_nil_of_zero {buf : List Nat} {i : Nat}
    (h : buf.getD (skipSp buf i) 0 = 0) : tokensFrom buf i = [] := by
  rw [tokensFrom_eq, if_pos h]

lemma tokensFromF_congr {b1 b2 : List Nat} (hlen : b1.length = b2.length) :
    ∀ f i, (∀ m, i ≤ m → b1.getD m 0 = b2.getD m 0) →
      tokensFromF f b1 i = tokensFromF f b2 i := by
  intro f
  induction f with
  | zero => intro i _; rfl
  | succ g ih =>
    intro i hag
    simp only [tokensFromF]
    have hj : skipSp b1 i = skipSp b2 i := skipSp_congr hlen i hag
    have hjge : i ≤ skipSp b2 i := by rw [← hj]; exact skipSp_le b1 i
    rw [hj, hag _ hjge]
    by_cases h0 : b2.getD (skipSp b2 i) 0 = 0
    · rw [if_pos h0, if_pos h0]
    · rw [if_neg h0, if_neg h0]
      have hk : tokEnd b1 (skipSp b2 i) = tokEnd b2 (skipSp b2 i) :=
        tokEnd_congr hlen _ (fun m hm => hag m (by omega))
      have hkge2 : i ≤ tokEnd b2 (skipSp b2 i) := le_trans hjge (tokEnd_le b2 _)
      rw [hk, hag _ hkge2,
        slice_congr_range (fun m hm1 hm2 => hag m (by omega))]
      congr 1
      by_cases hk0 : b2.getD (tokEnd b2 (skipSp b2 i)) 0 = 0
      · rw [if_pos hk0]
        exact ih _ (fun m hm => hag m (by omega))
      · rw [if_neg hk0]
        exact ih _ (fun m hm => hag m (by omega))

lemma tokensFrom_congr {b1 b2 : List Nat} (hlen : b1.length = b2.length) (i : Nat)
    (hag : ∀ m, i ≤ m → b1.getD m 0 = b2.getD m 0) :
    tokensFrom b1 i = tokensFrom b2 i := by
  show tokensFromF (b1.length + 1) b1 i = tokensFromF (b2.length + 1) b2 i
  rw [hlen]
  exact tokensFromF_congr hlen (b2.length + 1) i hag

lemma tokensFrom_set_lt (buf : List Nat) (k c : Nat) {i : Nat} (h : k < i) :
    tokensFrom (buf.set k c) i = tokensFrom buf i := by
  apply tokensFrom_congr (by simp) i
  intro m hm
  exact getD_set_ne c (by omega)

lemma slice_mem {buf : List Nat} {j k c : Nat} (h : c ∈ slice buf j k) :
    ∃ m, j ≤ m ∧ m < k ∧ buf.getD m 0 = c := by
  unfold slice at h
  rcases List.mem_map.mp h with ⟨m, hm, rfl⟩
  have hlt := List.mem_range.mp hm
  exact ⟨j + m, by omega, by omega, rfl⟩

lemma tokensFromF_sound (buf : List Nat) :
    ∀ f i t, t ∈ tokensFromF f buf i → t ≠ [] ∧ ∀ c ∈ t, c ≠ 0 ∧ c ≠ 32 := by
  intro f
  induction f with
  | zero => intro i t ht; simp [tokensFromF] at ht
  | succ g ih =>
    intro i t ht
    simp only [tokensFromF] at ht
    by_cases h0 : buf.getD (skipSp buf i) 0 = 0
    · rw [if_pos h0] at ht
      simp at ht
    · rw [if_neg h0] at ht
      rcases List.mem_cons.mp ht with rfl | htail
      · constructor
        · have hj32 := skipSp_ne buf i
          have hk := tokEnd_gt buf hj32 h0
          intro hemp
          have hlen0 :
              (slice buf (skipSp buf i) (tokEnd buf (skipSp buf i))).length = 0 := by
            rw [hemp]; rfl
          unfold slice at hlen0
          simp at hlen0
          omega
        · intro c hc
          rcases slice_mem hc with ⟨m, hm1, hm2, rfl⟩
          have hint := tokEnd_interior buf hm1 hm2
          exact ⟨hint.2, hint.1⟩
      · exact ih _ t htail

lemma tokensFrom_sound {buf : List Nat} {i : Nat} {t : List Nat}
    (ht : t ∈ tokensFrom buf i) : t ≠ [] ∧ ∀ c ∈ t, c ≠ 0 ∧ c ≠ 32 :=
  tokensFromF_sound buf _ i t ht

/-! ### `strtok` step lemmas -/

lemma skipSp_idem (buf : List Nat) (i : Nat) :
    skipSp buf (skipSp buf i) = skipSp buf i := by
  rw [skipSp_eq, if_neg (skipSp_ne buf i)]

lemma strtok_none {buf : List Nat} {i : Nat} (h : tokensFrom buf i = []) :
    strtokSp buf i = (none, buf, skipSp buf i) ∧
    tokensFrom buf (skipSp buf i) = [] := by
  have h0 : buf.getD (skipSp buf i) 0 = 0 := by
    by_contra hc
    rw [tokensFrom_eq, if_neg hc] at h
    exact (List.cons_ne_nil _ _) h
  constructor
  · simp only [strtokSp]
    rw [if_pos h0]
  · apply tokensFrom_nil_of_zero
    rw [skipSp_idem]
    exact h0

lemma strtok_cons {buf : List Nat} {i : Nat} {t : List Nat} {ts : List (List Nat)}
    (h : tokensFrom buf i = t :: ts) :
    ∃ buf2 sv, strtokSp buf i = (some t, buf2, sv) ∧ buf2.length = buf.length ∧
      tokensFrom buf2 sv = ts ∧
      (buf2 = buf ∨ ∃ k, buf.getD k 0 = 32 ∧ buf2 = buf.set k 0) := by
  have h0 : buf.getD (skipSp buf i) 0 ≠ 0 := by
    intro hc
    rw [tokensFrom_eq, if_pos hc] at h
    exact (List.cons_ne_nil _ _) h.symm
  rw [tokensFrom_eq, if_neg h0] at h
  injection h with ht hts
  by_cases hk0 : buf.getD (tokEnd buf (skipSp buf i)) 0 = 0
  · refine ⟨buf, tokEnd buf (skipSp buf i), ?_, rfl, ?_, Or.inl rfl⟩
    · simp only [strtokSp]
      rw [if_neg h0, if_pos hk0, ht]
    · rw [if_pos hk0] at hts
      exact hts
  · have hk32 : buf.getD (tokEnd buf (skipSp buf i)) 0 = 32 :=
      (tokEnd_stop buf _).resolve_right hk0
    refine ⟨buf.set (tokEnd buf (skipSp buf i)) 0, tokEnd buf (skipSp buf i) + 1,
      ?_, by simp, ?_, Or.inr ⟨_, hk32, rfl⟩⟩
    · simp only [strtokSp]
      rw [if_neg h0, if_neg hk0, ht]
    · rw [tokensFrom_set_lt buf _ 0 (by omega)]
      rw [if_neg hk0] at hts
      exact hts

/-- Core of extraction idempotence: a second `strtok` restart on the (possibly
mutated) line finds the same first token. -/
lemma strtok_reset_idem (buf : List Nat) :
    (strtokSp (strtokSp buf 0).2.1 0).1 = (strtokSp buf 0).1 := by
  by_cases h0 : buf.getD (skipSp buf 0) 0 = 0
  · have hstep : strtokSp buf 0 = (none, buf, skipSp buf 0) := by
      simp only [strtokSp]
      rw [if_pos h0]
    rw [hstep]
    show (strtokSp buf 0).1 = none
    rw [hstep]
  · by_cases hk0 : buf.getD (tokEnd buf (skipSp buf 0)) 0 = 0
    · have hstep : strtokSp buf 0 =
          (some (slice buf (skipSp buf 0) (tokEnd buf (skipSp buf 0))), buf,
           tokEnd buf (skipSp buf 0)) := by
        simp only [strtokSp]
        rw [if_neg h0, if_pos hk0]
      rw [hstep]
      show (strtokSp buf 0).1 = some (slice buf (skipSp buf 0) (tokEnd buf (skipSp buf 0)))
      rw [hstep]
    · have hk32 : buf.getD (tokEnd buf (skipSp buf 0)) 0 = 32 :=
        (tokEnd_stop buf _).resolve_right hk0
      have hkgt : skipSp buf 0 + 1 ≤ tokEnd buf (skipSp buf 0) :=
        tokEnd_gt buf (skipSp_ne buf 0) h0
      have hklt : tokEnd buf (skipSp buf 0) < buf.length := getD_lt_length (by
        rw [hk32]; norm_num)
      have hstep : strtokSp buf 0 =
          (some (slice buf (skipSp buf 0) (tokEnd buf (skipSp buf 0))),
           buf.set (tokEnd buf (skipSp buf 0)) 0, tokEnd buf (skipSp buf 0) + 1) := by
        simp only [strtokSp]
        rw [if_neg h0, if_neg hk0]
      rw [hstep]
      have hj : skipSp (buf.set (tokEnd buf (skipSp buf 0)) 0) 0 = skipSp buf 0 := by
        apply skipSp_char
        · exact Nat.zero_le _
        · intro m hm1 hm2
          rw [getD_set_ne 0 (by omega)]
          exact skipSp_sp buf (Nat.zero_le m) hm2
        · rw [getD_set_ne 0 (by omega)]
          exact skipSp_ne buf 0
      have hkch : tokEnd (buf.set (tokEnd buf (skipSp buf 0)) 0) (skipSp buf 0) =
          tokEnd buf (skipSp buf 0) := by
        apply tokEnd_char
        · exact tokEnd_le buf _
        · intro m hm1 hm2
          rw [getD_set_ne 0 (by omega)]
          exact tokEnd_interior buf hm1 hm2
        · right
          exact getD_set_self 0 hklt
      have hout : strtokSp (buf.set (tokEnd buf (skipSp buf 0)) 0) 0 =
          (some (slice (buf.set (tokEnd buf (skipSp buf 0)) 0) (skipSp buf 0)
                  (tokEnd buf (skipSp buf 0))),
           buf.set (tokEnd buf (skipSp buf 0)) 0, tokEnd buf (skipSp buf 0)) := by
        simp only [strtokSp]
        rw [hj, getD_set_ne 0 (by omega), hkch, getD_set_self 0 hklt]
        rw [if_neg h0, if_pos rfl]
      rw [hout]
      exact congrArg some (slice_congr_range
        (fun m hm1 hm2 => getD_set_ne 0 (by omega)))

/-! ### Facts about the Token Buffer contents -/

lemma cstr_set_zero (a : List Nat) : cstr (a.set 0 0) = [] := by
  cases a with
  | nil => rfl
  | cons x r => rfl

lemma getD_set_zero (a : List Nat) : (a.set 0 0).getD 0 0 = 0 := by
  cases a <;> rfl

lemma takeWhile_append_zero (t rest : List Nat) (h : ∀ c ∈ t, c ≠ 0) :
    (t ++ 0 :: rest).takeWhile (fun b => b != 0) = t := by
  induction t with
  | nil => simp
  | cons c r ih =>
    have hc : c ≠ 0 := h c (List.mem_cons_self c r)
    simp only [List.cons_append, List.takeWhile_cons]
    rw [if_pos (by simpa using hc)]
    rw [ih (fun d hd => h d (List.mem_cons_of_mem c hd))]

lemma cstr_strcpyTok (a t : List Nat) (h : ∀ c ∈ t, c ≠ 0) :
    cstr (strcpyTok a t) = t := by
  unfold strcpyTok cstr
  have happ : (t ++ [0]) ++ a.drop (t.length + 1) = t ++ 0 :: a.drop (t.length + 1) := by
    simp
  rw [happ]
  exact takeWhile_append_zero t _ h

lemma drop_tok (t X : List Nat) : ((t ++ [0]) ++ X).drop (t.length + 1) = X := by
  have hlen : t.length + 1 = (t ++ [0]).length := by simp
  rw [hlen, List.drop_left]

lemma strcpyTok_reset (a t : List Nat) :
    strcpyTok ((strcpyTok (a.set 0 0) t).set 0 0) t = strcpyTok (a.set 0 0) t := by
  unfold strcpyTok
  rw [set_zero_drop _ _ (by omega), drop_tok]

/-! ### Reduction lemmas for `get_token` -/

lemma get_token_eq_none {st : Cli} {r : Bool} {b2 : List Nat} {s2 : Nat}
    (hs : strtokSp st.line (scanFrom st r) = (none, b2, s2)) :
    get_token st r = ({ st with line := b2, save := s2, args := st.args.set 0 0 }, []) := by
  unfold get_token
  rw [hs]

lemma get_token_eq_some {st : Cli} {r : Bool} {t b2 : List Nat} {s2 : Nat}
    (hs : strtokSp st.line (scanFrom st r) = (some t, b2, s2)) :
    get_token st r =
      if t.length < ARG_BUF_SIZE then
        ({ st with line := b2, save := s2, args := strcpyTok (st.args.set 0 0) t }, [])
      else
        ({ st with line := b2, save := s2, args := st.args.set 0 0, err := true },
         [Ev.pstrln "Token too long."]) := by
  unfold get_token
  rw [hs]

/-- An extraction call when no token remains: empty token written, no output,
error flag untouched, line unchanged, still no tokens remaining. -/
lemma get_token_none {st : Cli} {r : Bool}
    (h : tokensFrom st.line (scanFrom st r) = []) :
    get_token st r =
      ({ st with save := skipSp st.line (scanFrom st r), args := st.args.set 0 0 }, []) ∧
    tokensFrom (st.line) (skipSp st.line (scanFrom st r)) = [] := by
  obtain ⟨hs, hrest⟩ := strtok_none h
  exact ⟨get_token_eq_none hs, hrest⟩

/-- An extraction call on a token that fits the Token Buffer: the token is
copied in, no output, error flag untouched, the remaining tokens are the tail. -/
lemma get_token_found {st : Cli} {r : Bool} {t : List Nat} {ts : List (List Nat)}
    (h : tokensFrom st.line (scanFrom st r) = t :: ts)
    (hlen : t.length ≤ 15) :
    ∃ buf2 sv, get_token st r =
        ({ st with line := buf2, save := sv, args := strcpyTok (st.args.set 0 0) t }, []) ∧
      tokensFrom buf2 sv = ts := by
  obtain ⟨buf2, sv, hstep, _, hrest, _⟩ := strtok_cons h
  refine ⟨buf2, sv, ?_, hrest⟩
  rw [get_token_eq_some hstep,
    if_pos (show t.length < ARG_BUF_SIZE by show t.length < 16; omega)]

/-- An extraction call on a too-long candidate: the notice is printed, the
error flag is raised, the Token Buffer is left empty. -/
lemma get_token_toolong {st : Cli} {r : Bool} {t : List Nat} {ts : List (List Nat)}
    (h : tokensFrom st.line (scanFrom st r) = t :: ts)
    (hlen : 16 ≤ t.length) :
    ∃ buf2 sv, get_token st r =
        ({ st with line := buf2, save := sv, args := st.args.set 0 0, err := true },
         [Ev.pstrln "Token too long."]) ∧
      tokensFrom buf2 sv = ts := by
  obtain ⟨buf2, sv, hstep, _, hrest, _⟩ := strtok_cons h
  refine ⟨buf2, sv, ?_, hrest⟩
  rw [get_token_eq_some hstep,
    if_neg (show ¬t.length < ARG_BUF_SIZE by show ¬t.length < 16; omega)]

lemma tok_no_zero {st : Cli} {i : Nat} {t : List Nat} {ts : List (List Nat)}
    (h : tokensFrom st.line i = t :: ts) : ∀ c ∈ t, c ≠ 0 := by
  intro c hc
  have hmem : t ∈ tokensFrom st.line i := by rw [h]; exact List.mem_cons_self t ts
  exact ((tokensFrom_sound hmem).2 c hc).1

/-! ### Sequences of extraction calls -/

/-- `n` successive continuation calls (`resetScan = false`), collecting the C
string left in the Token Buffer after each call, plus all emitted events. -/
def extractFrom (st : Cli) : Nat → List (List Nat) × Cli × List Ev
  | 0 => ([], st, [])
  | n + 1 =>
    let r := get_token st false
    let rest := extractFrom r.1 n
    (cstr r.1.args :: rest.1, rest.2.1, r.2 ++ rest.2.2)

/-- `n` extraction calls, the first with `resetScan = true`, the rest with
`resetScan = false`, collecting the Token Buffer contents seen. -/
def extractSeq (st : Cli) : Nat → List (List Nat) × Cli × List Ev
  | 0 => ([], st, [])
  | n + 1 =>
    let r := get_token st true
    let rest := extractFrom r.1 n
    (cstr r.1.args :: rest.1, rest.2.1, r.2 ++ rest.2.2)

lemma extractFrom_spec : ∀ (ts : List (List Nat)) (st : Cli),
    tokensFrom st.line st.save = ts → (∀ t ∈ ts, t.length ≤ 15) →
    (extractFrom st (ts.length + 1)).1 = ts ++ [[]] ∧
    (extractFrom st (ts.length + 1)).2.1.err = st.err ∧
    (extractFrom st (ts.length + 1)).2.2 = [] := by
  intro ts
  induction ts with
  | nil =>
    intro st hts _
    have h : tokensFrom st.line (scanFrom st false) = [] := hts
    obtain ⟨hg, _⟩ := get_token_none h
    simp only [List.length_nil, extractFrom]
    rw [hg]
    refine ⟨?_, rfl, rfl⟩
    rw [cstr_set_zero]
    rfl
  | cons t ts2 ih =>
    intro st hts hlen
    have h : tokensFrom st.line (scanFrom st false) = t :: ts2 := hts
    obtain ⟨buf2, sv, hg, hrest⟩ := get_token_found h (hlen t (List.mem_cons_self t ts2))
    have hzero : ∀ c ∈ t, c ≠ 0 := tok_no_zero h
    have hstep : extractFrom st (ts2.length + 1 + 1) =
        (cstr (get_token st false).1.args ::
           (extractFrom (get_token st false).1 (ts2.length + 1)).1,
         (extractFrom (get_token st false).1 (ts2.length + 1)).2.1,
         (get_token st false).2 ++
           (extractFrom (get_token st false).1 (ts2.length + 1)).2.2) := rfl
    obtain ⟨ih1, ih2, ih3⟩ :=
      ih { st with line := buf2, save := sv, args := strcpyTok (st.args.set 0 0) t }
        hrest (fun u hu => hlen u (List.mem_cons_of_mem t hu))
    refine ⟨?_, ?_, ?_⟩
    · simp only [List.length_cons, hstep, hg]
      rw [cstr_strcpyTok _ _ hzero, ih1]
      simp
    · simp only [List.length_cons, hstep, hg]
      exact ih2
    · simp only [List.length_cons, hstep, hg]
      rw [List.nil_append, ih3]

/-! ### Line editor lemmas -/

/-- A line editor state whose buffer holds exactly the characters `acc`
followed by NUL padding (the shape `read_input` maintains). -/
def mkLE (acc : List Nat) (o : List Ev) : LE :=
  { buf := acc ++ zeros (64 - acc.length), cur := acc.length, ovf := false, out := o }

lemma getD_zeros (k i : Nat) : (zeros k).getD i 0 = 0 := by
  induction k generalizing i with
  | zero => rfl
  | succ n ih =>
    cases i with
    | zero => rfl
    | succ m => exact ih m

lemma feedByte_ovf {st : LE} {c : Nat} (h : st.ovf = true) :
    (feedByte st c).1.ovf = true := by
  simp only [feedByte]
  repeat' split
  all_goals simp_all

lemma read_input_ovf {bs : List Nat} {st : LE} (h : st.ovf = true) :
    (read_input st bs).1.ovf = true := by
  induction bs generalizing st with
  | nil => exact h
  | cons c rest ih =>
    simp only [read_input]
    split
    · exact feedByte_ovf h
    · exact ih (feedByte_ovf h)

lemma read_input_step_false {st st2 : LE} {c : Nat} {rest : List Nat}
    (hf : feedByte st c = (st2, false)) :
    read_input st (c :: rest) = read_input st2 rest := by
  simp only [read_input]
  rw [hf]
  rfl

lemma read_input_step_true {st st2 : LE} {c : Nat} {rest : List Nat}
    (hf : feedByte st c = (st2, true)) :
    read_input st (c :: rest) = (st2, some rest) := by
  simp only [read_input]
  rw [hf]
  rfl

lemma feed_mk_lf (acc : List Nat) (o : List Ev) :
    feedByte (mkLE acc o) 10 = (mkLE acc o, false) := by
  simp [feedByte, LF_CHAR]

lemma feed_mk_cr (acc : List Nat) (o : List Ev) :
    feedByte (mkLE acc o) 13 = (mkLE acc (o ++ [Ev.wr 13, Ev.wr 10]), true) := by
  simp [feedByte, mkLE, LF_CHAR, CR_CHAR]

lemma feed_mk_bksp_nil (o : List Ev) : feedByte (mkLE [] o) 8 = (mkLE [] o, false) := by
  simp [feedByte, mkLE, LF_CHAR, CR_CHAR, BKSP_CHAR]

lemma set_last_zero (xs : List Nat) (y : Nat) (k : Nat) :
    ((xs ++ [y]) ++ zeros k).set xs.length 0 = xs ++ zeros (k + 1) := by
  rw [List.append_assoc]
  have hy : [y] ++ zeros k = y :: zeros k := rfl
  rw [hy, set_append_len, ← zeros_succ]

lemma feed_mk_bksp (xs : List Nat) (y : Nat) (o : List Ev)
    (hlen : (xs ++ [y]).length ≤ 63) :
    feedByte (mkLE (xs ++ [y]) o) 8 =
      (mkLE xs (o ++ [Ev.wr 8, Ev.wr 32, Ev.wr 8]), false) := by
  have hl : (xs ++ [y]).length = xs.length + 1 := by simp
  have hxl : xs.length ≤ 62 := by omega
  have hpos : 0 < (xs ++ [y]).length := by simp
  have hbuf : ((xs ++ [y]) ++ zeros (64 - (xs ++ [y]).length)).set
      ((xs ++ [y]).length - 1) 0 = xs ++ zeros (64 - xs.length) := by
    rw [hl, Nat.add_sub_cancel, set_last_zero]
    have hz : 64 - (xs.length + 1) + 1 = 64 - xs.length := by omega
    rw [hz]
  simp [feedByte, mkLE, LF_CHAR, CR_CHAR, BKSP_CHAR, SP_CHAR, hpos, hbuf]
  rw [show (64 - xs.length) = (63 - xs.length) + 1 by omega, zeros_succ]

lemma store_buf (acc : List Nat) (c : Nat) (hlen : acc.length ≤ 62) :
    (acc ++ zeros (64 - acc.length)).set acc.length c =
      (acc ++ [c]) ++ zeros (64 - (acc ++ [c]).length) := by
  have hz : zeros (64 - acc.length) = 0 :: zeros (64 - (acc.length + 1)) := by
    rw [← zeros_succ]
    congr 1
    omega
  rw [hz, set_append_len, List.append_assoc]
  have hl : (acc ++ [c]).length = acc.length + 1 := by simp
  rw [hl]
  rfl

lemma feed_mk_store (acc : List Nat) (o : List Ev) (c : Nat)
    (h10 : c ≠ 10) (h13 : c ≠ 13) (h8 : c ≠ 8) (hlen : acc.length ≤ 62) :
    feedByte (mkLE acc o) c =
      (mkLE (acc ++ [toLowerB c]) (o ++ [Ev.wr (toLowerB c)]), false) := by
  simp only [feedByte, mkLE, LF_CHAR, CR_CHAR, BKSP_CHAR, LINE_BUF_SIZE]
  rw [if_neg h10, if_neg h13, if_neg h8, if_pos (by omega : acc.length < 64 - 1)]
  rw [store_buf acc (toLowerB c) hlen]
  simp

lemma feed_mk_ovf (acc : List Nat) (o : List Ev) (c : Nat)
    (h10 : c ≠ 10) (h13 : c ≠ 13) (h8 : c ≠ 8) (hlen : acc.length = 63) :
    feedByte (mkLE acc o) c =
      ({ buf := (zeros LINE_BUF_SIZE).set 0 (toLowerB c), cur := 1, ovf := true,
         out := o ++ [Ev.wr 7, Ev.wr 13, Ev.wr 10, promptEv, Ev.wr (toLowerB c)] },
       false) := by
  simp only [feedByte, mkLE, LF_CHAR, CR_CHAR, BKSP_CHAR, LINE_BUF_SIZE]
  rw [if_neg h10, if_neg h13, if_neg h8, if_neg (by omega : ¬acc.length < 64 - 1)]

/-- The central line editor invariant: feeding a CR-terminated byte sequence
that never overflows produces exactly the backspace-resolved, lowercased
content, NUL-padded to the buffer size. -/
lemma read_input_main : ∀ (bs tail acc : List Nat) (o : List Ev),
    13 ∉ bs → acc.length ≤ 63 →
    (read_input (mkLE acc o) (bs ++ 13 :: tail)).1.ovf = false →
    ∃ o2,
      read_input (mkLE acc o) (bs ++ 13 :: tail) =
        (mkLE (bs.foldl specStep acc) o2, some tail) ∧
      (bs.foldl specStep acc).length ≤ 63 := by
  intro bs
  induction bs with
  | nil =>
    intro tail acc o _ hlen _
    refine ⟨o ++ [Ev.wr 13, Ev.wr 10], ?_, by simpa using hlen⟩
    simp only [List.nil_append, List.foldl_nil]
    exact read_input_step_true (feed_mk_cr acc o)
  | cons c bs2 ih =>
    intro tail acc o h13 hlen hovf
    have hc13 : c ≠ 13 := by
      intro hc
      exact h13 (hc ▸ List.mem_cons_self c bs2)
    have h13b : 13 ∉ bs2 := fun hm => h13 (List.mem_cons_of_mem c hm)
    rw [List.cons_append] at hovf ⊢
    by_cases h10 : c = 10
    · subst h10
      rw [read_input_step_false (feed_mk_lf acc o)] at hovf ⊢
      have hfold : specStep acc 10 = acc := by simp [specStep, LF_CHAR]
      rw [List.foldl_cons, hfold]
      exact ih tail acc o h13b hlen hovf
    · by_cases h8 : c = 8
      · subst h8
        rcases List.eq_nil_or_concat acc with rfl | ⟨xs, y, rfl⟩
        · rw [read_input_step_false (feed_mk_bksp_nil o)] at hovf ⊢
          have hfold : specStep [] 8 = [] := by
            simp [specStep, LF_CHAR, BKSP_CHAR]
          rw [List.foldl_cons, hfold]
          exact ih tail [] o h13b hlen hovf
        · simp only [List.concat_eq_append] at hlen hovf ⊢
          rw [read_input_step_false (feed_mk_bksp xs y o hlen)] at hovf ⊢
          have hfold : specStep (xs ++ [y]) 8 = xs := by
            simp [specStep, LF_CHAR, BKSP_CHAR, List.dropLast_concat]
          rw [List.foldl_cons, hfold]
          have hxl : xs.length ≤ 63 := by
            have hx2 : (xs ++ [y]).length = xs.length + 1 := by simp
            omega
          exact ih tail xs _ h13b hxl hovf
      · by_cases hsp : acc.length ≤ 62
        · rw [read_input_step_false (feed_mk_store acc o c h10 hc13 h8 hsp)] at hovf ⊢
          have hfold : specStep acc c = acc ++ [toLowerB c] := by
            simp [specStep, LF_CHAR, BKSP_CHAR, h10, h8]
          rw [List.foldl_cons, hfold]
          have hlen2 : (acc ++ [toLowerB c]).length ≤ 63 := by
            simp
            omega
          exact ih tail _ _ h13b hlen2 hovf
        · exfalso
          have hlen63 : acc.length = 63 := by omega
          rw [read_input_step_false (feed_mk_ovf acc o c h10 hc13 h8 hlen63)] at hovf
          rw [read_input_ovf rfl] at hovf
          simp at hovf

/-! ### Concrete environments for witnesses and counterexamples -/

def envW : Env :=
  { rd := fun _ => 0, spi8 := fun b => b, spi16 := fun w => w,
    memAtoi := fun _ => 0, helpStatus := 0 }

/-- Environment exhibiting the `cmd_pr` argument bug: pin 7 reads low, every
other pin reads high, and the integer `atoi` finds at RAM address 0 (the NUL
byte `args[1]` passed where a pointer is expected) is 3. -/
def envCex : Env :=
  { rd := fun p => if p = 7 then 0 else 1, spi8 := fun b => b, spi16 := fun w => w,
    memAtoi := fun _ => 3, helpStatus := 0 }

/-- A 16-byte token, one byte past what the Token Buffer can hold. -/
def tokTL : List Nat := strB "aaaaaaaaaaaaaaaa"

/-- A line whose only token is too long. -/
def lineTL1 : List Nat := strB "aaaaaaaaaaaaaaaa" ++ zeros 48

/-- A line with a too-long first token followed by `o`. -/
def lineTL2 : List Nat := strB "aaaaaaaaaaaaaaaa o" ++ zeros 46

/-- A line with pin token `13` followed by a too-long value token. -/
def lineTL3 : List Nat := strB "13 aaaaaaaaaaaaaaaa" ++ zeros 45

/-! ### Claim theorems -/

/-- C1: the claim states that the `pr` handler parses the full pin token as a
decimal integer, reads that pin and prints its level.  The code instead
executes `pinnum = atoi(args[1]);`, handing the single character `args[1]` to
`atoi` as a pointer.  For the spec's own scenario `"pr 7\x0d"` with pin 7
reading low, `args[1]` is the NUL terminator (address 0): under an
environment where the integer found at address 0 is 3 and pin 3 reads high,
the code reads pin 3 — not pin 7 — and prints `1` although pin 7 is low.
Changing the pin token to 9 changes nothing: the handler never parses it. -/
theorem C1_pr_code_bug :
    envCex.rd 7 = 0 ∧
    Ev.readEv 3 ∈ (processLine envCex (strB "pr 7" ++ [13])).2 ∧
    Ev.readEv 7 ∉ (processLine envCex (strB "pr 7" ++ [13])).2 ∧
    Ev.pnumln 1 ∈ (processLine envCex (strB "pr 7" ++ [13])).2 ∧
    Ev.pnumln 0 ∉ (processLine envCex (strB "pr 7" ++ [13])).2 ∧
    Ev.readEv 3 ∈ (processLine envCex (strB "pr 9" ++ [13])).2 := by
  decide

/-- C2 counterexample: extracting the first token of the line `"pw 13"`
overwrites the delimiting space (index 2) with NUL — `strtok` writes into the
Line Buffer, so extraction is not read-only. -/
theorem C2_cex :
    (strB "pw 13" ++ zeros 59).getD 2 0 = 32 ∧
    (get_token (cli0 (strB "pw 13" ++ zeros 59)) true).1.line.getD 2 0 = 0 ∧
    (get_token (cli0 (strB "pw 13" ++ zeros 59)) true).1.line ≠
      strB "pw 13" ++ zeros 59 := by
  decide

/-- C2 amended: token extraction may write into the Line Buffer, but only in
one way — when the extracted token is terminated by a space delimiter, that
single space byte is overwritten with NUL; otherwise the line is unchanged. -/
theorem C2_tokenizer_writes (st : Cli) (r : Bool) :
    (get_token st r).1.line = st.line ∨
    ∃ k, st.line.getD k 0 = 32 ∧ (get_token st r).1.line = st.line.set k 0 := by
  rcases hcase : tokensFrom st.line (scanFrom st r) with _ | ⟨t, ts⟩
  · obtain ⟨hg, _⟩ := get_token_none hcase
    rw [hg]
    exact Or.inl rfl
  · obtain ⟨buf2, sv, hstep, _, _, hmut⟩ := strtok_cons hcase
    have hg := get_token_eq_some hstep
    by_cases hl : t.length < ARG_BUF_SIZE
    · rw [hg, if_pos hl]
      exact hmut
    · rw [hg, if_neg hl]
      exact hmut

/-- C3: for every CR-terminated input short enough never to overflow, the
Line Buffer on completion holds exactly the lowercased, backspace-resolved
input, and the byte at the cursor is NUL. -/
theorem C3_line_editor (bs tail : List Nat) (h13 : 13 ∉ bs)
    (hovf : (read_input LE0 (bs ++ 13 :: tail)).1.ovf = false) :
    (read_input LE0 (bs ++ 13 :: tail)).2 = some tail ∧
    (read_input LE0 (bs ++ 13 :: tail)).1.buf.take
      (read_input LE0 (bs ++ 13 :: tail)).1.cur = lineEditorSpec bs ∧
    (read_input LE0 (bs ++ 13 :: tail)).1.buf.getD
      (read_input LE0 (bs ++ 13 :: tail)).1.cur 0 = 0 := by
  have hle0 : LE0 = mkLE [] [] := rfl
  rw [hle0] at hovf ⊢
  obtain ⟨o2, hrun, hlen⟩ := read_input_main bs tail [] [] h13 (by simp) hovf
  rw [hrun]
  refine ⟨rfl, ?_, ?_⟩
  · show ((bs.foldl specStep []) ++ zeros (64 - (bs.foldl specStep []).length)).take
        (bs.foldl specStep []).length = lineEditorSpec bs
    rw [List.take_left]
    rfl
  · show ((bs.foldl specStep []) ++ zeros (64 - (bs.foldl specStep []).length)).getD
        (bs.foldl specStep []).length 0 = 0
    rw [getD_append_right le_rfl]
    exact getD_zeros _ _

/-- C3 witness: the keystrokes `p`, `R`, backspace, `r`, space, `7` followed
by CR leave `"pr 7"` in the buffer. -/
theorem C3_line_editor_witness :
    (13 ∉ ([112, 82, 8, 114, 32, 55] : List Nat)) ∧
    (read_input LE0 (([112, 82, 8, 114, 32, 55] : List Nat) ++ 13 :: [97])).1.ovf
      = false ∧
    ((read_input LE0 (([112, 82, 8, 114, 32, 55] : List Nat) ++ 13 :: [97])).2 =
        some [97] ∧
      (read_input LE0 (([112, 82, 8, 114, 32, 55] : List Nat) ++ 13 :: [97])).1.buf.take
        (read_input LE0 (([112, 82, 8, 114, 32, 55] : List Nat) ++ 13 :: [97])).1.cur =
        lineEditorSpec [112, 82, 8, 114, 32, 55] ∧
      (read_input LE0 (([112, 82, 8, 114, 32, 55] : List Nat) ++ 13 :: [97])).1.buf.getD
        (read_input LE0 (([112, 82, 8, 114, 32, 55] : List Nat) ++ 13 :: [97])).1.cur 0
        = 0) :=
  ⟨by decide, by decide, C3_line_editor [112, 82, 8, 114, 32, 55] [97] (by decide) (by decide)⟩

/-- C4: feeding one more ordinary byte to a full line (cursor at
capacity−1) triggers exactly one overflow: buffer zeroed, bell + CR + LF +
prompt emitted, completion not reported, and the (lowercased) rejected byte
seeds the new line as its only character. -/
theorem C4_overflow (st : LE) (c : Nat) (h10 : c ≠ 10) (h13 : c ≠ 13) (h8 : c ≠ 8)
    (hcur : st.cur = LINE_BUF_SIZE - 1) :
    feedByte st c =
      ({ buf := (zeros LINE_BUF_SIZE).set 0 (toLowerB c), cur := 1, ovf := true,
         out := st.out ++ [Ev.wr 7, Ev.wr CR_CHAR, Ev.wr LF_CHAR, promptEv,
                           Ev.wr (toLowerB c)] }, false) ∧
    (feedByte st c).1.buf.take (feedByte st c).1.cur = [toLowerB c] ∧
    (feedByte st c).2 = false := by
  have hcur2 : st.cur = 63 := hcur
  have hmain : feedByte st c =
      ({ buf := (zeros LINE_BUF_SIZE).set 0 (toLowerB c), cur := 1, ovf := true,
         out := st.out ++ [Ev.wr 7, Ev.wr CR_CHAR, Ev.wr LF_CHAR, promptEv,
                           Ev.wr (toLowerB c)] }, false) := by
    simp only [feedByte, LF_CHAR, CR_CHAR, BKSP_CHAR, LINE_BUF_SIZE]
    rw [if_neg h10, if_neg h13, if_neg h8, if_neg (by omega : ¬st.cur < 64 - 1)]
  refine ⟨hmain, ?_, ?_⟩
  · rw [hmain]
    rfl
  · rw [hmain]

/-- A line editor state whose buffer already holds 63 characters. -/
def leFull : LE :=
  { buf := List.replicate 63 97 ++ [0], cur := 63, ovf := false, out := [] }

/-- C4 witness: a line holding 63 `a` characters overflows on `B`, which
(lowercased) becomes the sole content of the fresh line. -/
theorem C4_overflow_witness :
    leFull.cur = LINE_BUF_SIZE - 1 ∧
    ((feedByte leFull 66).1.buf.take (feedByte leFull 66).1.cur = [toLowerB 66] ∧
     (feedByte leFull 66).2 = false) :=
  ⟨by decide, (C4_overflow leFull 66 (by decide) (by decide) (by decide) (by decide)).2⟩

/-- C5: two consecutive `resetScan = true` extraction calls with no new input
write the same token into the Token Buffer, emit the same output, and leave
the error flag identical — even though `strtok` may have replaced the token's
delimiter with NUL in between. -/
theorem C5_reset_idempotent (st : Cli) :
    (get_token (get_token st true).1 true).1.args = (get_token st true).1.args ∧
    (get_token (get_token st true).1 true).2 = (get_token st true).2 ∧
    (get_token (get_token st true).1 true).1.err = (get_token st true).1.err := by
  have hidem0 := strtok_reset_idem st.line
  rcases hs1 : strtokSp st.line 0 with ⟨o1, b2, s2⟩
  rw [hs1] at hidem0
  have hidem : (strtokSp b2 0).1 = o1 := hidem0
  have hs1b : strtokSp st.line (scanFrom st true) = (o1, b2, s2) := hs1
  cases o1 with
  | none =>
    have hg1 : get_token st true =
        ({ st with line := b2, save := s2, args := st.args.set 0 0 }, []) :=
      get_token_eq_none hs1b
    rcases hs2 : strtokSp b2 0 with ⟨o2, b3, s3⟩
    rw [hs2] at hidem
    have ho2 : o2 = none := hidem
    subst ho2
    have hs2b : strtokSp b2
        (scanFrom ({ st with line := b2, save := s2, args := st.args.set 0 0 } : Cli)
          true) = (none, b3, s3) := hs2
    have hg2 : get_token
        ({ st with line := b2, save := s2, args := st.args.set 0 0 } : Cli) true =
        ({ st with line := b3, save := s3, args := (st.args.set 0 0).set 0 0 }, []) :=
      get_token_eq_none hs2b
    rw [hg1, hg2]
    refine ⟨?_, rfl, rfl⟩
    show (st.args.set 0 0).set 0 0 = st.args.set 0 0
    rw [List.set_set]
  | some t =>
    rcases hs2 : strtokSp b2 0 with ⟨o2, b3, s3⟩
    rw [hs2] at hidem
    have ho2 : o2 = some t := hidem
    subst ho2
    by_cases hl : t.length < ARG_BUF_SIZE
    · have hg1 : get_token st true = ({ st with line := b2, save := s2, args := strcpyTok (st.args.set 0 0) t }, []) := by
        rw [get_token_eq_some hs1b, if_pos hl]
      have hs2b : strtokSp b2 (scanFrom ({ st with line := b2, save := s2, args := strcpyTok (st.args.set 0 0) t } : Cli) true) = (some t, b3, s3) := hs2
      have hg2 : get_token ({ st with line := b2, save := s2, args := strcpyTok (st.args.set 0 0) t } : Cli) true = ({ st with line := b3, save := s3, args := strcpyTok ((strcpyTok (st.args.set 0 0) t).set 0 0) t }, []) := by
        rw [get_token_eq_some hs2b, if_pos hl]
      rw [hg1, hg2]
      refine ⟨?_, rfl, rfl⟩
      show strcpyTok ((strcpyTok (st.args.set 0 0) t).set 0 0) t =
        strcpyTok (st.args.set 0 0) t
      exact strcpyTok_reset st.args t
    · have hg1 : get_token st true = ({ st with line := b2, save := s2, args := st.args.set 0 0, err := true }, [Ev.pstrln "Token too long."]) := by
        rw [get_token_eq_some hs1b, if_neg hl]
      have hs2b : strtokSp b2 (scanFrom ({ st with line := b2, save := s2, args := st.args.set 0 0, err := true } : Cli) true) = (some t, b3, s3) := hs2
      have hg2 : get_token ({ st with line := b2, save := s2, args := st.args.set 0 0, err := true } : Cli) true = ({ st with line := b3, save := s3, args := (st.args.set 0 0).set 0 0, err := true }, [Ev.pstrln "Token too long."]) := by
        rw [get_token_eq_some hs2b, if_neg hl]
      rw [hg1, hg2]
      refine ⟨?_, rfl, rfl⟩
      show (st.args.set 0 0).set 0 0 = st.args.set 0 0
      rw [List.set_set]

/-- C6: for a line of N space-delimited tokens each fitting the Token Buffer,
one reset call followed by N−1 continuation calls yields the tokens in order,
and the (N+1)-th call yields the empty token with no output and the error
flag untouched (the end-of-line outcome). -/
theorem C6_token_sequence (st : Cli)
    (hlen : ∀ t ∈ tokensFrom st.line 0, t.length ≤ 15) :
    (extractSeq st ((tokensFrom st.line 0).length + 1)).1 =
      tokensFrom st.line 0 ++ [[]] ∧
    (extractSeq st ((tokensFrom st.line 0).length + 1)).2.1.err = st.err ∧
    (extractSeq st ((tokensFrom st.line 0).length + 1)).2.2 = [] := by
  rcases hts : tokensFrom st.line 0 with _ | ⟨t, ts2⟩
  · have h : tokensFrom st.line (scanFrom st true) = [] := hts
    obtain ⟨hg, _⟩ := get_token_none h
    simp only [List.length_nil, extractSeq, extractFrom]
    rw [hg]
    refine ⟨?_, rfl, rfl⟩
    rw [cstr_set_zero]
    rfl
  · have h : tokensFrom st.line (scanFrom st true) = t :: ts2 := hts
    obtain ⟨buf2, sv, hg, hrest⟩ := get_token_found h
      (hlen t (by rw [hts]; exact List.mem_cons_self t ts2))
    have hzero : ∀ c ∈ t, c ≠ 0 := tok_no_zero h
    have hstep : extractSeq st (ts2.length + 1 + 1) =
        (cstr (get_token st true).1.args ::
           (extractFrom (get_token st true).1 (ts2.length + 1)).1,
         (extractFrom (get_token st true).1 (ts2.length + 1)).2.1,
         (get_token st true).2 ++
           (extractFrom (get_token st true).1 (ts2.length + 1)).2.2) := rfl
    obtain ⟨ih1, ih2, ih3⟩ :=
      extractFrom_spec ts2
        { st with line := buf2, save := sv, args := strcpyTok (st.args.set 0 0) t }
        hrest (fun u hu => hlen u (by rw [hts]; exact List.mem_cons_of_mem t hu))
    refine ⟨?_, ?_, ?_⟩
    · simp only [List.length_cons, hstep, hg]
      rw [cstr_strcpyTok _ _ hzero, ih1]
      simp
    · simp only [List.length_cons, hstep, hg]
      exact ih2
    · simp only [List.length_cons, hstep, hg]
      rw [List.nil_append, ih3]

/-- C6 witness: the line `"pw 13 1"` yields its three tokens in order and
then the empty end-of-line token. -/
theorem C6_token_sequence_witness :
    (∀ t ∈ tokensFrom (cli0 (strB "pw 13 1" ++ zeros 57)).line 0, t.length ≤ 15) ∧
    ((extractSeq (cli0 (strB "pw 13 1" ++ zeros 57))
        ((tokensFrom (cli0 (strB "pw 13 1" ++ zeros 57)).line 0).length + 1)).1 =
      tokensFrom (cli0 (strB "pw 13 1" ++ zeros 57)).line 0 ++ [[]] ∧
     (extractSeq (cli0 (strB "pw 13 1" ++ zeros 57))
        ((tokensFrom (cli0 (strB "pw 13 1" ++ zeros 57)).line 0).length + 1)).2.1.err =
      (cli0 (strB "pw 13 1" ++ zeros 57)).err ∧
     (extractSeq (cli0 (strB "pw 13 1" ++ zeros 57))
        ((tokensFrom (cli0 (strB "pw 13 1" ++ zeros 57)).line 0).length + 1)).2.2 = []) :=
  ⟨by decide, C6_token_sequence (cli0 (strB "pw 13 1" ++ zeros 57)) (by decide)⟩

/-- C7: an extraction whose candidate token reaches the Token Buffer capacity
prints the notice, raises the Error Flag and leaves the Token Buffer empty;
and when this happens on the command-name token, the whole dispatch/handler
step is skipped — the command cycle emits exactly the notice and the next
prompt. -/
theorem C7_toolong :
    (∀ (st : Cli) (r : Bool) (t : List Nat) (ts : List (List Nat)),
      tokensFrom st.line (scanFrom st r) = t :: ts → 16 ≤ t.length →
      (get_token st r).2 = [Ev.pstrln "Token too long."] ∧
      (get_token st r).1.err = true ∧
      (get_token st r).1.args.getD 0 0 = 0) ∧
    (∀ (env : Env) (line t : List Nat) (ts : List (List Nat)),
      tokensFrom line 0 = t :: ts → 16 ≤ t.length →
      (cli_cycle env (cli0 line)).2 = [Ev.pstrln "Token too long.", promptEv]) := by
  constructor
  · intro st r t ts h hlen
    obtain ⟨buf2, sv, hg, _⟩ := get_token_toolong h hlen
    rw [hg]
    exact ⟨rfl, rfl, getD_set_zero st.args⟩
  · intro env line t ts h hlen
    have h2 : tokensFrom (cli0 line).line (scanFrom (cli0 line) true) = t :: ts := h
    obtain ⟨buf2, sv, hg, _⟩ := get_token_toolong h2 hlen
    simp only [cli_cycle, parse_cmd]
    rw [hg]
    rfl

/-- C7 witness: a command line starting with an 18-character token. -/
theorem C7_toolong_witness :
    ((get_token (cli0 (strB "aaaaaaaaaaaaaaaaaa pw" ++ zeros 43)) true).2 =
        [Ev.pstrln "Token too long."] ∧
      (get_token (cli0 (strB "aaaaaaaaaaaaaaaaaa pw" ++ zeros 43)) true).1.err = true ∧
      (get_token (cli0 (strB "aaaaaaaaaaaaaaaaaa pw" ++ zeros 43)) true).1.args.getD 0 0
        = 0) ∧
    (cli_cycle envW (cli0 (strB "aaaaaaaaaaaaaaaaaa pw" ++ zeros 43))).2 =
      [Ev.pstrln "Token too long.", promptEv] :=
  ⟨C7_toolong.1 (cli0 (strB "aaaaaaaaaaaaaaaaaa pw" ++ zeros 43)) true
      (strB "aaaaaaaaaaaaaaaaaa") [strB "pw"] (by decide) (by decide),
   C7_toolong.2 envW (strB "aaaaaaaaaaaaaaaaaa pw" ++ zeros 43)
      (strB "aaaaaaaaaaaaaaaaaa") [strB "pw"] (by decide) (by decide)⟩

/-! ### C8: dispatch -/

lemma cstr_nil_iff (a : List Nat) : cstr a = [] ↔ a.getD 0 0 = 0 := by
  cases a with
  | nil => simp [cstr]
  | cons b t =>
    by_cases hb : b = 0
    · subst hb
      simp [cstr, List.takeWhile_cons]
    · simp [cstr, List.takeWhile_cons, hb]

lemma execGo_find (env : Env) (st : Cli) : ∀ l : List (String × Handler),
    execGo env st l =
      match l.find? (fun e => cstr st.args == strB e.1) with
      | some e => e.2 env st
      | none => (st, 0, [Ev.pstrln "Invalid command. Type \"help\" for more."]) := by
  intro l
  induction l with
  | nil => rfl
  | cons e rest ih =>
    simp only [execGo, List.find?]
    by_cases hc : cstr st.args = strB e.1
    · rw [if_pos hc]
      have hb : (cstr st.args == strB e.1) = true := by simpa using hc
      rw [hb]
    · rw [if_neg hc]
      have hb : (cstr st.args == strB e.1) = false := by simpa using hc
      rw [hb]
      exact ih

/-- C8: dispatch behaves exactly as specified — the empty first token prints
the empty-command notice with status 0, an exact match against the command
table runs that command's handler and propagates its status, and anything
else prints the invalid-command notice with status 0.  The first conjunct is
the refinement against the specification-side `dispatch_spec`; the remaining
conjuncts name each outcome explicitly. -/
theorem C8_dispatch (env : Env) (st : Cli) :
    execute env st = dispatch_spec env st ∧
    (st.args.getD 0 0 = 0 →
      execute env st = (st, 0, [Ev.pstrln "(Empty Command)"])) ∧
    ((∀ n ∈ commands_str, cstr st.args ≠ strB n) → st.args.getD 0 0 ≠ 0 →
      execute env st = (st, 0, [Ev.pstrln "Invalid command. Type \"help\" for more."])) ∧
    (cstr st.args = strB "delay" → execute env st = cmd_delay env st) ∧
    (cstr st.args = strB "help" → execute env st = cmd_help env st) ∧
    (cstr st.args = strB "pmode" → execute env st = cmd_pmode env st) ∧
    (cstr st.args = strB "pr" → execute env st = cmd_pr env st) ∧
    (cstr st.args = strB "pw" → execute env st = cmd_pw env st) ∧
    (cstr st.args = strB "spiend" → execute env st = cmd_spiend env st) ∧
    (cstr st.args = strB "spirw" → execute env st = cmd_spirw env st) ∧
    (cstr st.args = strB "spirw16" → execute env st = cmd_spirw16 env st) ∧
    (cstr st.args = strB "spistart" → execute env st = cmd_spistart env st) := by
  have hmain : execute env st = dispatch_spec env st := by
    by_cases h0 : st.args.getD 0 0 = 0
    · have hc : cstr st.args = [] := (cstr_nil_iff st.args).mpr h0
      simp only [execute, dispatch_spec]
      rw [if_pos h0, if_pos hc]
    · have hc : ¬cstr st.args = [] := fun hcc => h0 ((cstr_nil_iff st.args).mp hcc)
      simp only [execute, dispatch_spec]
      rw [if_neg h0, if_neg hc]
      exact execGo_find env st cmdTable
  refine ⟨hmain, ?_, ?_, ?_, ?_, ?_, ?_, ?_, ?_, ?_, ?_, ?_⟩
  · intro h0
    simp only [execute]
    rw [if_pos h0]
  · intro hne h0
    rw [hmain]
    simp only [dispatch_spec]
    rw [if_neg (fun hcc => h0 ((cstr_nil_iff st.args).mp hcc))]
    have hf : cmdTable.find? (fun e => cstr st.args == strB e.1) = none := by
      rw [List.find?_eq_none]
      intro e he
      obtain ⟨n, hd⟩ := e
      have hn : n ∈ commands_str := (List.of_mem_zip he).1
      simpa using hne n hn
    rw [hf]
  all_goals intro h
  all_goals rw [hmain]
  all_goals simp only [dispatch_spec]
  all_goals rw [h]
  all_goals rfl

/-- C8 witness: empty command, a `pw` match, and a non-command token. -/
theorem C8_dispatch_witness :
    ((cli0 (zeros 64)).args.getD 0 0 = 0 ∧
      execute envW (cli0 (zeros 64)) =
        (cli0 (zeros 64), 0, [Ev.pstrln "(Empty Command)"])) ∧
    (cstr { line := zeros 64, save := 0, args := strB "pw" ++ zeros 14, err := false : Cli }.args = strB "pw" ∧
      execute envW { line := zeros 64, save := 0, args := strB "pw" ++ zeros 14, err := false : Cli } =
        cmd_pw envW { line := zeros 64, save := 0, args := strB "pw" ++ zeros 14, err := false : Cli }) :=
  ⟨⟨by decide, (C8_dispatch envW (cli0 (zeros 64))).2.1 (by decide)⟩,
   ⟨by decide,
    (C8_dispatch envW { line := zeros 64, save := 0, args := strB "pw" ++ zeros 14, err := false : Cli }).2.2.2.2.2.2.2.1 (by decide)⟩⟩

/-! ### C9: spistart -/

lemma order_chain (t : List Nat) :
    (if t = strB "lsbfirst" then LSBFIRST
     else if t = strB "msbfirst" then MSBFIRST else SPI_ORDER) = resolveOrder t := by
  unfold resolveOrder SPI_ORDER
  by_cases h1 : t = strB "lsbfirst"
  · rw [if_pos h1, if_pos h1]
  · rw [if_neg h1, if_neg h1]
    by_cases h2 : t = strB "msbfirst"
    · rw [if_pos h2]
    · rw [if_neg h2]

lemma mode_chain (t : List Nat) :
    (if t = strB "mode0" then SPI_MODE0
     else if t = strB "mode1" then SPI_MODE1
     else if t = strB "mode2" then SPI_MODE2
     else if t = strB "mode3" then SPI_MODE3 else SPI_MODE) = resolveMode t := by
  unfold resolveMode SPI_MODE
  rfl

/-- C9 counterexample: the claim promises no error output whenever the order
token is unrecognized, but a 16-character order token — which is not
`lsbfirst` or `msbfirst` — makes the `spistart` invocation print the
"Token too long." notice. -/
theorem C9_cex :
    Ev.pstrln "Token too long." ∈
      (cli_cycle envW (cli0 (strB "spistart aaaaaaaaaaaaaaaa mode1" ++ zeros 33))).2 ∧
    (tokensFrom (strB "spistart aaaaaaaaaaaaaaaa mode1" ++ zeros 33) 0).getD 1 [] =
      strB "aaaaaaaaaaaaaaaa" ∧
    strB "aaaaaaaaaaaaaaaa" ≠ strB "lsbfirst" ∧
    strB "aaaaaaaaaaaaaaaa" ≠ strB "msbfirst" := by
  decide

/-- C9 amended: provided the order and mode tokens fit the Token Buffer
(at most 15 bytes), unrecognized tokens silently fall back to the compiled-in
defaults (MSB-first, mode 0) with no output at all, and the handler configures
the chip-select pin as an output, initializes the bus, opens the transaction
with the resolved order and mode at the compiled-in clock speed, and drives
chip-select low, returning status 0. -/
theorem C9_spistart_amended (env : Env) (st : Cli)
    (hlen : ∀ t ∈ (tokensFrom st.line st.save).take 2, t.length ≤ 15) :
    (cmd_spistart env st).2.2 =
      [Ev.pinModeEv SPI_SSPIN OUTPUT, Ev.spiBeginEv,
       Ev.spiBeginTransactionEv SPI_SPEED
         (resolveOrder ((tokensFrom st.line st.save).getD 0 []))
         (resolveMode ((tokensFrom st.line st.save).getD 1 [])),
       Ev.dwEv SPI_SSPIN LOW] ∧
    (cmd_spistart env st).2.1 = 0 := by
  rcases hts : tokensFrom st.line st.save with _ | ⟨t1, _ | ⟨t2, ts2⟩⟩
  · have h1 : tokensFrom st.line (scanFrom st false) = [] := hts
    obtain ⟨hg1, hrest1⟩ := get_token_none h1
    have h2 : tokensFrom ({ st with save := skipSp st.line (scanFrom st false), args := st.args.set 0 0 } : Cli).line (scanFrom ({ st with save := skipSp st.line (scanFrom st false), args := st.args.set 0 0 } : Cli) false) = [] := hrest1
    obtain ⟨hg2, _⟩ := get_token_none h2
    constructor
    · simp only [cmd_spistart, hg1, hg2, List.nil_append]
      rw [cstr_set_zero, cstr_set_zero, order_chain, mode_chain]
      simp
    · simp only [cmd_spistart, hg1, hg2]
  · have h1 : tokensFrom st.line (scanFrom st false) = t1 :: [] := hts
    have ht1 : t1.length ≤ 15 := hlen t1 (by rw [hts]; simp)
    obtain ⟨b2, s2, hg1, hrest1⟩ := get_token_found h1 ht1
    have hzero1 : ∀ c ∈ t1, c ≠ 0 := tok_no_zero h1
    have h2 : tokensFrom ({ st with line := b2, save := s2, args := strcpyTok (st.args.set 0 0) t1 } : Cli).line (scanFrom ({ st with line := b2, save := s2, args := strcpyTok (st.args.set 0 0) t1 } : Cli) false) = [] := hrest1
    obtain ⟨hg2, _⟩ := get_token_none h2
    constructor
    · simp only [cmd_spistart, hg1, hg2, List.nil_append]
      rw [cstr_strcpyTok _ _ hzero1, cstr_set_zero, order_chain, mode_chain]
      simp
    · simp only [cmd_spistart, hg1, hg2]
  · have h1 : tokensFrom st.line (scanFrom st false) = t1 :: (t2 :: ts2) := hts
    have ht1 : t1.length ≤ 15 := hlen t1 (by rw [hts]; simp)
    have ht2 : t2.length ≤ 15 := by
      apply hlen t2
      rw [hts]
      simp
    obtain ⟨b2, s2, hg1, hrest1⟩ := get_token_found h1 ht1
    have hzero1 : ∀ c ∈ t1, c ≠ 0 := tok_no_zero h1
    have h2 : tokensFrom ({ st with line := b2, save := s2, args := strcpyTok (st.args.set 0 0) t1 } : Cli).line (scanFrom ({ st with line := b2, save := s2, args := strcpyTok (st.args.set 0 0) t1 } : Cli) false) = t2 :: ts2 := hrest1
    obtain ⟨b3, s3, hg2, _⟩ := get_token_found h2 ht2
    have hzero2 : ∀ c ∈ t2, c ≠ 0 := tok_no_zero h2
    constructor
    · simp only [cmd_spistart, hg1, hg2, List.nil_append]
      rw [cstr_strcpyTok _ _ hzero1, cstr_strcpyTok _ _ hzero2, order_chain, mode_chain]
      simp
    · simp only [cmd_spistart, hg1, hg2]

/-- C9 witness: a `lsbfirst mode2` argument pair resolves to LSB-first,
mode 2. -/
theorem C9_spistart_amended_witness :
    (∀ t ∈ (tokensFrom (cli0 (strB "lsbfirst mode2" ++ zeros 50)).line
        (cli0 (strB "lsbfirst mode2" ++ zeros 50)).save).take 2, t.length ≤ 15) ∧
    ((cmd_spistart envW (cli0 (strB "lsbfirst mode2" ++ zeros 50))).2.2 =
      [Ev.pinModeEv SPI_SSPIN OUTPUT, Ev.spiBeginEv,
       Ev.spiBeginTransactionEv SPI_SPEED
         (resolveOrder ((tokensFrom (cli0 (strB "lsbfirst mode2" ++ zeros 50)).line
            (cli0 (strB "lsbfirst mode2" ++ zeros 50)).save).getD 0 []))
         (resolveMode ((tokensFrom (cli0 (strB "lsbfirst mode2" ++ zeros 50)).line
            (cli0 (strB "lsbfirst mode2" ++ zeros 50)).save).getD 1 [])),
       Ev.dwEv SPI_SSPIN LOW] ∧
     (cmd_spistart envW (cli0 (strB "lsbfirst mode2" ++ zeros 50))).2.1 = 0) :=
  ⟨by decide, C9_spistart_amended envW (cli0 (strB "lsbfirst mode2" ++ zeros 50)) (by decide)⟩

/-- C10: a too-long argument token sets the Error Flag but does not abort the
running handler of any command: every handler keeps executing with the
emptied Token Buffer, whose empty C string parses as the integer 0 —
`delay` waits 0 ms, `pmode` acts on pin 0, `pw` drives the pin low instead of
reporting a value error, `spirw` and `spirw16` transfer the value 0 and print
what they receive, and `spistart` falls back to the default order and still
opens the transaction. -/
theorem C10_toolong_continues (env : Env) (st : Cli) :
    (∀ v ts, tokensFrom st.line st.save = v :: ts → 16 ≤ v.length →
      (cmd_delay env st).2.2 = [Ev.pstrln "Token too long.", Ev.delayEv 0] ∧
      (cmd_delay env st).2.1 = 0 ∧ (cmd_delay env st).1.err = true) ∧
    (∀ v, tokensFrom st.line st.save = [v, strB "o"] → 16 ≤ v.length →
      (cmd_pmode env st).2.2 = [Ev.pstrln "Token too long.", Ev.pinModeEv 0 OUTPUT] ∧
      (cmd_pmode env st).2.1 = 0 ∧ (cmd_pmode env st).1.err = true) ∧
    (∀ p v, tokensFrom st.line st.save = [p, v] → p.length ≤ 15 → 16 ≤ v.length →
      (cmd_pw env st).2.2 = [Ev.pstrln "Token too long.", Ev.dwEv (atoi p) LOW] ∧
      (cmd_pw env st).2.1 = 0 ∧ (cmd_pw env st).1.err = true) ∧
    (∀ v ts, tokensFrom st.line st.save = v :: ts → 16 ≤ v.length →
      (cmd_spirw env st).2.2 = [Ev.pstrln "Token too long.", Ev.spiTransferEv 0,
        Ev.pnumln ((env.spi8 0 % 256 : Nat) : Int)] ∧
      (cmd_spirw env st).2.1 = ((env.spi8 0 % 256 : Nat) : Int) ∧
      (cmd_spirw env st).1.err = true) ∧
    (∀ v ts, tokensFrom st.line st.save = v :: ts → 16 ≤ v.length →
      (cmd_spirw16 env st).2.2 = [Ev.pstrln "Token too long.", Ev.spiTransfer16Ev 0,
        Ev.pnumln (toInt16 ((env.spi16 0 % 65536 : Nat) : Int))] ∧
      (cmd_spirw16 env st).2.1 = toInt16 ((env.spi16 0 % 65536 : Nat) : Int) ∧
      (cmd_spirw16 env st).1.err = true) ∧
    (∀ v, tokensFrom st.line st.save = [v] → 16 ≤ v.length →
      (cmd_spistart env st).2.2 = [Ev.pstrln "Token too long.",
        Ev.pinModeEv SPI_SSPIN OUTPUT, Ev.spiBeginEv,
        Ev.spiBeginTransactionEv SPI_SPEED MSBFIRST SPI_MODE0,
        Ev.dwEv SPI_SSPIN LOW] ∧
      (cmd_spistart env st).2.1 = 0 ∧ (cmd_spistart env st).1.err = true) := by
  have hatoi0 : atoi [] = 0 := by decide
  have h256 : ((atoi ([] : List Nat)) % 256).toNat = 0 := by decide
  have h65536 : ((atoi ([] : List Nat)) % 65536).toNat = 0 := by decide
  refine ⟨?_, ?_, ?_, ?_, ?_, ?_⟩
  · intro v ts h hv
    have h1 : tokensFrom st.line (scanFrom st false) = v :: ts := h
    obtain ⟨b2, s2, hg, _⟩ := get_token_toolong h1 hv
    refine ⟨?_, ?_, ?_⟩
    · simp only [cmd_delay, hg]
      rw [cstr_set_zero, hatoi0]
      rfl
    · simp only [cmd_delay, hg]
    · simp only [cmd_delay, hg]
  · intro v h hv
    have h1 : tokensFrom st.line (scanFrom st false) = v :: [strB "o"] := h
    obtain ⟨b2, s2, hg1, hrest⟩ := get_token_toolong h1 hv
    have h2 : tokensFrom ({ st with line := b2, save := s2, args := st.args.set 0 0, err := true } : Cli).line (scanFrom ({ st with line := b2, save := s2, args := st.args.set 0 0, err := true } : Cli) false) = strB "o" :: [] := hrest
    obtain ⟨b3, s3, hg2, _⟩ := get_token_found h2 (by decide)
    have hzo : ∀ c ∈ strB "o", c ≠ 0 := by decide
    refine ⟨?_, ?_, ?_⟩
    · simp only [cmd_pmode, hg1, hg2]
      rw [cstr_set_zero, cstr_strcpyTok _ _ hzo, hatoi0]
      decide
    · simp only [cmd_pmode, hg1, hg2]
    · simp only [cmd_pmode, hg1, hg2]
  · intro p v h hp hv
    have h1 : tokensFrom st.line (scanFrom st false) = p :: [v] := h
    obtain ⟨b2, s2, hg1, hrest1⟩ := get_token_found h1 hp
    have hzero : ∀ c ∈ p, c ≠ 0 := tok_no_zero h1
    have h2 : tokensFrom ({ st with line := b2, save := s2, args := strcpyTok (st.args.set 0 0) p } : Cli).line (scanFrom ({ st with line := b2, save := s2, args := strcpyTok (st.args.set 0 0) p } : Cli) false) = v :: [] := hrest1
    obtain ⟨b3, s3, hg2, _⟩ := get_token_toolong h2 hv
    refine ⟨?_, ?_, ?_⟩
    · simp only [cmd_pw, hg1, hg2, List.nil_append]
      rw [cstr_set_zero, hatoi0, if_pos rfl, cstr_strcpyTok _ _ hzero]
      rfl
    · simp only [cmd_pw, hg1, hg2]
      rw [cstr_set_zero, hatoi0, if_pos rfl]
    · simp only [cmd_pw, hg1, hg2]
      rw [cstr_set_zero, hatoi0, if_pos rfl]
  · intro v ts h hv
    have h1 : tokensFrom st.line (scanFrom st false) = v :: ts := h
    obtain ⟨b2, s2, hg, _⟩ := get_token_toolong h1 hv
    refine ⟨?_, ?_, ?_⟩
    · simp only [cmd_spirw, hg]
      rw [cstr_set_zero, h256]
      rfl
    · simp only [cmd_spirw, hg]
      rw [cstr_set_zero, h256]
    · simp only [cmd_spirw, hg]
  · intro v ts h hv
    have h1 : tokensFrom st.line (scanFrom st false) = v :: ts := h
    obtain ⟨b2, s2, hg, _⟩ := get_token_toolong h1 hv
    refine ⟨?_, ?_, ?_⟩
    · simp only [cmd_spirw16, hg]
      rw [cstr_set_zero, h65536]
      rfl
    · simp only [cmd_spirw16, hg]
      rw [cstr_set_zero, h65536]
    · simp only [cmd_spirw16, hg]
  · intro v h hv
    have h1 : tokensFrom st.line (scanFrom st false) = v :: [] := h
    obtain ⟨b2, s2, hg1, hrest⟩ := get_token_toolong h1 hv
    have h2 : tokensFrom ({ st with line := b2, save := s2, args := st.args.set 0 0, err := true } : Cli).line (scanFrom ({ st with line := b2, save := s2, args := st.args.set 0 0, err := true } : Cli) false) = [] := hrest
    obtain ⟨hg2, _⟩ := get_token_none h2
    refine ⟨?_, ?_, ?_⟩
    · simp only [cmd_spistart, hg1, hg2]
      rw [cstr_set_zero, cstr_set_zero]
      decide
    · simp only [cmd_spistart, hg1, hg2]
    · simp only [cmd_spistart, hg1, hg2]

/-- C10 witness: concrete too-long argument tokens for each handler — the
notice prints, the error flag rises, and every handler still runs to
completion on the empty token. -/
theorem C10_toolong_continues_witness :
    ((cmd_delay envW (cli0 lineTL1)).2.2 =
        [Ev.pstrln "Token too long.", Ev.delayEv 0] ∧
      (cmd_delay envW (cli0 lineTL1)).2.1 = 0 ∧
      (cmd_delay envW (cli0 lineTL1)).1.err = true) ∧
    ((cmd_pmode envW (cli0 lineTL2)).2.2 =
        [Ev.pstrln "Token too long.", Ev.pinModeEv 0 OUTPUT] ∧
      (cmd_pmode envW (cli0 lineTL2)).2.1 = 0 ∧
      (cmd_pmode envW (cli0 lineTL2)).1.err = true) ∧
    ((cmd_pw envW (cli0 lineTL3)).2.2 =
        [Ev.pstrln "Token too long.", Ev.dwEv (atoi (strB "13")) LOW] ∧
      (cmd_pw envW (cli0 lineTL3)).2.1 = 0 ∧
      (cmd_pw envW (cli0 lineTL3)).1.err = true) ∧
    ((cmd_spirw envW (cli0 lineTL1)).2.2 =
        [Ev.pstrln "Token too long.", Ev.spiTransferEv 0,
         Ev.pnumln ((envW.spi8 0 % 256 : Nat) : Int)] ∧
      (cmd_spirw envW (cli0 lineTL1)).2.1 = ((envW.spi8 0 % 256 : Nat) : Int) ∧
      (cmd_spirw envW (cli0 lineTL1)).1.err = true) ∧
    ((cmd_spirw16 envW (cli0 lineTL1)).2.2 =
        [Ev.pstrln "Token too long.", Ev.spiTransfer16Ev 0,
         Ev.pnumln (toInt16 ((envW.spi16 0 % 65536 : Nat) : Int))] ∧
      (cmd_spirw16 envW (cli0 lineTL1)).2.1 =
        toInt16 ((envW.spi16 0 % 65536 : Nat) : Int) ∧
      (cmd_spirw16 envW (cli0 lineTL1)).1.err = true) ∧
    ((cmd_spistart envW (cli0 lineTL1)).2.2 =
        [Ev.pstrln "Token too long.", Ev.pinModeEv SPI_SSPIN OUTPUT, Ev.spiBeginEv,
         Ev.spiBeginTransactionEv SPI_SPEED MSBFIRST SPI_MODE0,
         Ev.dwEv SPI_SSPIN LOW] ∧
      (cmd_spistart envW (cli0 lineTL1)).2.1 = 0 ∧
      (cmd_spistart envW (cli0 lineTL1)).1.err = true) :=
  ⟨(C10_toolong_continues envW (cli0 lineTL1)).1 tokTL [] (by decide) (by decide),
   (C10_toolong_continues envW (cli0 lineTL2)).2.1 tokTL (by decide) (by decide),
   (C10_toolong_continues envW (cli0 lineTL3)).2.2.1 (strB "13") tokTL
     (by decide) (by decide) (by decide),
   (C10_toolong_continues envW (cli0 lineTL1)).2.2.2.1 tokTL [] (by decide) (by decide),
   (C10_toolong_continues envW (cli0 lineTL1)).2.2.2.2.1 tokTL [] (by decide) (by decide),
   (C10_toolong_continues envW (cli0 lineTL1)).2.2.2.2.2 tokTL (by decide) (by decide)⟩

end PinCLISpec
